import Mathlib

/-!
Portmaster: process resolution, active profile sets, update scan.

A shallow embedding of three pieces of the repository:

* `process/process.go`  : `GetOrFindProcess` (namespace `process`)
* `profile/active.go`   : the registry of active profile sets (namespace `profile`)
* `updates/latest.go`   : `ScanForLatest` (namespace `updates`)

Go pointers to records that the code never mutates are modelled by values,
`nil` by `none`.  Mutable shared records (`*Set`) are modelled by addresses
into a heap.  Logging is not modelled.  Locks are not modelled: every
operation is taken as one atomic step.
-/

namespace process

/-! ## Data model of `process/process.go` -/

/-- Go `error` values as far as the code distinguishes them: the code only
compares against `database.ErrNotFound`. -/
inductive Err where
  | ErrNotFound
  | other (msg : String)
  deriving DecidableEq, Repr

/-- Modelled from the spec: the `Framework` descriptor of
`safing-core/profiles`, whose declaration is outside the sources. `FindParent`
is a `uint8`, `Rule` stands for the data of the rewrite rule that `GetNewPath`
interprets. -/
structure Framework where
  FindParent : Nat
  MergeWithParent : Bool
  Rule : String
  deriving DecidableEq, Repr

/-- Modelled from the spec: the `Profile` record of `safing-core/profiles`,
whose declaration is outside the sources; only the fields that
`GetOrFindProcess` reads or writes. `Key` is what `GetKey().String()` returns. -/
structure Profile where
  Key : String
  Name : String
  Default : Bool
  Icon : String
  Flags : List Int
  Framework : Option Framework
  deriving DecidableEq, Repr

/-- A Process represents a process running on the operating system
(`type Process struct`). `FileInfo` is kept abstract as a string. -/
structure Process where
  UserID : Int
  UserName : String
  UserHome : String
  Pid : Int
  ParentPid : Int
  Path : String
  Cwd : String
  FileInfo : Option String
  CmdLine : String
  FirstArg : String
  ProfileKey : String
  Profile : Option Profile
  Name : String
  Icon : String
  deriving DecidableEq, Repr

/-- The Go zero value `&Process{Pid: pid}`. -/
def Process.zero (pid : Int) : Process :=
  { UserID := 0, UserName := "", UserHome := "", Pid := pid, ParentPid := 0,
    Path := "", Cwd := "", FileInfo := none, CmdLine := "", FirstArg := "",
    ProfileKey := "", Profile := none, Name := "", Icon := "" }

/-- Mutable state threaded through a call. `processes` is the ProcessStore
(`database.Processes`), `profiles` the state of the profile store, of an
arbitrary type `σ`. The two counters are ghost state: the number of queries
made to the OS process table (gopsutil) and the number of matching attempts
(calls of `GetActiveProfileByPath`). -/
structure World (σ : Type) where
  processes : List (String × Process)
  profiles : σ
  osQueries : Nat
  lookups : Nat
  deriving DecidableEq

/-- The collaborators of `GetOrFindProcess` that live outside the sources,
taken as parameters: the platform, gopsutil's per-pid queries, the profile
store of `safing-core/profiles`, `GetFileInfo`, the failure behaviour of
`database.CreateObject`, and the four flag constants. A query that returns
`(value, err)` in Go returns the pair here, since the code assigns the value
even when `err` is set. `Uids` gives `uids[0]`. -/
structure Env (σ : Type) where
  GOOS : String
  NewProcess : Int → Option Err
  Uids : Int → Except Err Int
  Username : Int → String × Option Err
  Ppid : Int → Except Err Int
  Exe : Int → String × Option Err
  Cmdline : Int → String × Option Err
  Name : Int → String × Option Err
  Parent : Int → Except Err Int
  GetActiveProfileByPath : σ → String → (Option Profile × Option Err) × σ
  FindProfileByPath : σ → String → String → (Option Profile × Option Err) × σ
  GetNewPath : Framework → String → String → Except Err String
  SaveProfile : σ → Profile → σ
  GetFileInfo : String → Option String
  CreateObject : String → Process → Option Err
  Internet : Int
  LocalNet : Int
  Directconnect : Int
  Service : Int

/-- Go `strconv.Itoa`. -/
def Itoa (pid : Int) : String := toString pid

/-- Go conversion `int32(x)` of an `int`: wrap to 32 bits, two's complement. -/
def toInt32 (x : Int) : Int := (x + 2147483648) % 4294967296 - 2147483648

/-- Go `strings.SplitN(s, " ", 2)[0]`: the part of `s` before its first space. -/
def firstField (s : String) : String :=
  String.mk (s.toList.takeWhile (fun c => c != ' '))

/-- Lookup in the ProcessStore (`GetProcess`): the first entry under `name`. -/
def GetProcess {σ : Type} (w : World σ) (name : String) : Option Process :=
  (w.processes.find? (fun e => e.1 == name)).map Prod.snd

/-- `Process.Create`: `CreateObject` in the default namespace. When the
database reports an error nothing is stored. -/
def Process.Create {σ : Type} (env : Env σ) (m : Process) (name : String) (w : World σ) :
    Option Err × World σ :=
  match env.CreateObject name m with
  | some e => (some e, w)
  | none => (none, { w with processes := (name, m) :: w.processes.filter (fun e => e.1 != name) })

/-- Count one query to the OS process table. -/
def World.tick {σ : Type} (w : World σ) : World σ := { w with osQueries := w.osQueries + 1 }

/-- The inner loop `for i := uint8(1); i < FindParent; i++` (lines 197-203),
by the number of rounds left: every round asks for the parent of the SAME
handle `pInfo` and stores its pid in `ppid`. -/
def parentLoop {σ : Type} (env : Env σ) (pInfoPid : Int) :
    Nat → Int → World σ → Except Err Int × World σ
  | 0, ppid, w => (.ok ppid, w)
  | k + 1, _, w =>
    match env.Parent pInfoPid with
    | .error e => (.error e, w.tick)
    | .ok parentPid => parentLoop env pInfoPid k parentPid w.tick

/-- The lookup of lines 181-184: `GetActiveProfileByPath`, and when its error
is `database.ErrNotFound`, `FindProfileByPath`. Gives `(applyProfile, err)` and
the new state of the profile store. -/
def lookupProfile {σ : Type} (env : Env σ) (s : σ) (processPath userHome : String) :
    (Option Profile × Option Err) × σ :=
  let r1 := env.GetActiveProfileByPath s processPath
  if r1.1.2 = some Err.ErrNotFound then env.FindProfileByPath r1.2 processPath userHome
  else r1

/-- How the matching loop is left. -/
inductive LoopExit (σ : Type) where
  /-- The `for` statement ended (condition false, or `break`). -/
  | done (new : Process) (w : World σ)
  /-- The statement `return nil, err`. -/
  | fail (e : Err) (w : World σ)
  /-- The statement `return GetOrFindProcess(int(ppid))`. -/
  | merge (ppid : Int) (w : World σ)
  /-- The model ran out of steps (never with the steps `GetOrFindProcess` gives). -/
  | outOfFuel
  deriving DecidableEq

/-- The matching loop `for applyProfile == nil { ... }` (lines 173-240). The
first argument bounds the number of times the loop head is reached. -/
def matchLoop {σ : Type} (env : Env σ) (pInfoPid : Int) :
    Nat → Process → String → Option Profile → Nat → World σ → LoopExit σ
  | 0, _, _, _, _, _ => .outOfFuel
  | fuel + 1, new, processPath, applyProfile, iterations, w =>
    if applyProfile.isSome then .done new w
    else
      let iterations := iterations + 1
      if iterations > 10 then .done new w
      else
        let r2 := lookupProfile env w.profiles processPath new.UserHome
        let w := { w with profiles := r2.2, lookups := w.lookups + 1 }
        let applyProfile := r2.1.1
        match r2.1.2 with
        | some _ => matchLoop env pInfoPid fuel new processPath applyProfile iterations w
        | none =>
          match applyProfile with
          | none => matchLoop env pInfoPid fuel new processPath none iterations w
          | some p =>
            match p.Framework with
            | some fw =>
              if fw.FindParent > 0 then
                match parentLoop env pInfoPid (fw.FindParent - 1) 0 w with
                | (.error e, w) => .fail e w
                | (.ok ppid, w) =>
                  if fw.MergeWithParent then .merge ppid w
                  else matchLoop env pInfoPid fuel new processPath (some p) iterations w
              else
                match env.GetNewPath fw new.CmdLine new.Cwd with
                | .error e => .fail e w
                | .ok newCommand =>
                  let new := { new with CmdLine := newCommand, Path := firstField newCommand }
                  matchLoop env pInfoPid fuel new new.Path none iterations w
            | none =>
              let new := { new with Profile := some p, ProfileKey := p.Key }
              if !p.Default && new.Icon != "" && p.Icon == "" then
                let p := { p with Icon := new.Icon }
                let new := { new with Profile := some p }
                let w := { w with profiles := env.SaveProfile w.profiles p }
                matchLoop env pInfoPid fuel new processPath (some p) iterations w
              else
                matchLoop env pInfoPid fuel new processPath (some p) iterations w

/-- What a call of `GetOrFindProcess` gives back: `(process, nil)`,
`(nil, err)`, or no answer within the recursion depth allowed. -/
inductive Ret (σ : Type) where
  | ok (p : Process) (w : World σ)
  | error (e : Err) (w : World σ)
  | outOfFuel
  deriving DecidableEq

/-- The condition of the first `case` of the `switch` (line 99). -/
def isSystemPid {σ : Type} (env : Env σ) (pid : Int) : Bool :=
  (pid == 0 && env.GOOS == "linux") || (pid == 4 && env.GOOS == "windows")

/-- The process synthesised for the kernel (lines 100-105). -/
def kernelProcess {σ : Type} (env : Env σ) (pid : Int) : Process :=
  { Process.zero pid with
    UserName := "Kernel"
    Name := "Operating System"
    Profile := some { Key := "", Name := "OS", Default := false, Icon := "",
                      Flags := [env.Internet, env.LocalNet, env.Directconnect, env.Service],
                      Framework := none } }

/-- The queries of lines 113-164 on the handle `pInfo`: UID (linux only),
Username, PPID, Path, Cmdline, Name. A failed query is logged and the run goes
on. -/
def gatherInfo {σ : Type} (env : Env σ) (pInfoPid : Int) (new : Process) (w : World σ) :
    Process × World σ :=
  let nw : Process × World σ :=
    if env.GOOS = "linux" then
      match env.Uids pInfoPid with
      | .error _ => (new, w.tick)
      | .ok uid => ({ new with UserID := uid }, w.tick)
    else (new, w)
  let new := { nw.1 with UserName := (env.Username pInfoPid).1 }
  let w := nw.2.tick
  let new := match env.Ppid pInfoPid with
    | .error _ => new
    | .ok ppid => { new with ParentPid := ppid }
  let w := w.tick
  let new := { new with Path := (env.Exe pInfoPid).1 }
  let w := w.tick
  let new := { new with CmdLine := (env.Cmdline pInfoPid).1 }
  let w := w.tick
  let new := { new with Name := (env.Name pInfoPid).1 }
  let w := w.tick
  (new, w)

/-- The tail of the function (lines 242-250): `GetFileInfo` inside the
`default` case, then `new.Create(strconv.Itoa(new.Pid))` whose result is
dropped, then `return new, nil`. -/
def saveAndReturn {σ : Type} (env : Env σ) (new : Process) (w : World σ) : Ret σ :=
  .ok new (new.Create env (Itoa new.Pid) w).2

/-- `GetOrFindProcess` (lines 88-251). The first argument bounds the depth of
the recursion through `return GetOrFindProcess(int(ppid))`. -/
def GetOrFindProcess {σ : Type} (env : Env σ) : Nat → Int → World σ → Ret σ
  | 0, _, _ => .outOfFuel
  | fuel + 1, pid, w =>
    match GetProcess w (Itoa pid) with
    | some process => .ok process w
    | none =>
      if isSystemPid env pid then
        saveAndReturn env (kernelProcess env pid) w
      else
        let pInfoPid := toInt32 pid
        match env.NewProcess pInfoPid with
        | some e => .error e w.tick
        | none =>
          let nw := gatherInfo env pInfoPid (Process.zero pid) w.tick
          match matchLoop env pInfoPid 11 nw.1 nw.1.Path none 0 nw.2 with
          | .done new w => saveAndReturn env { new with FileInfo := env.GetFileInfo new.Path } w
          | .fail e w => .error e w
          | .merge ppid w => GetOrFindProcess env fuel ppid w
          | .outOfFuel => .outOfFuel

/-- The pair `(process, err)` a call hands to its caller, without the state. -/
def Ret.answer {σ : Type} : Ret σ → Option (Except Err Process)
  | .ok p _ => some (.ok p)
  | .error e _ => some (.error e)
  | .outOfFuel => none

/-- The same collaborators with another behaviour of `database.CreateObject`. -/
def Env.withCreate {σ : Type} (env : Env σ) (create : String → Process → Option Err) : Env σ :=
  { env with CreateObject := create }

/-- Whether the call leaves through `return GetOrFindProcess(int(ppid))`
(line 205): the pid is not cached, is not the system pid, its handle is
obtained and the matching loop ends in the merge. -/
def mergesWithParent {σ : Type} (env : Env σ) (pid : Int) (w : World σ) : Bool :=
  match GetProcess w (Itoa pid) with
  | some _ => false
  | none =>
    if isSystemPid env pid then false
    else
      match env.NewProcess (toInt32 pid) with
      | some _ => false
      | none =>
        let nw := gatherInfo env (toInt32 pid) (Process.zero pid) w.tick
        match matchLoop env (toInt32 pid) 11 nw.1 nw.1.Path none 0 nw.2 with
        | .merge _ _ => true
        | _ => false

/-- How the matching loop is left, without the state it leaves. -/
inductive LoopShape where
  | done (new : Process)
  | fail (e : Err)
  | merge (ppid : Int)
  | outOfFuel
  deriving DecidableEq

/-- The exit of the matching loop without its state. -/
def LoopExit.shape {σ : Type} : LoopExit σ → LoopShape
  | .done new _ => .done new
  | .fail e _ => .fail e
  | .merge ppid _ => .merge ppid
  | .outOfFuel => .outOfFuel

/-- The state the matching loop leaves. -/
def LoopExit.world? {σ : Type} : LoopExit σ → Option (World σ)
  | .done _ w => some w
  | .fail _ w => some w
  | .merge _ w => some w
  | .outOfFuel => none

/-- The profile store gives the same answers in every state: what the lookup
of lines 181-184 returns for a path does not depend on the state of the
store (so not on what earlier lookups created or saved). -/
def StoreAnswersFixed {σ : Type} (env : Env σ) : Prop :=
  ∀ (s s1 : σ) (processPath userHome : String),
    (lookupProfile env s processPath userHome).1 = (lookupProfile env s1 processPath userHome).1

/-- The process a call returned, if it returned one. -/
def Ret.process? {σ : Type} : Ret σ → Option Process
  | .ok p _ => some p
  | _ => none

/-- The state a call left behind, if it returned. -/
def Ret.world? {σ : Type} : Ret σ → Option (World σ)
  | .ok _ w => some w
  | .error _ w => some w
  | .outOfFuel => none

/-! ### Test fixtures -/

/-- A Linux machine with a process 100 running `/bin/child`, whose parent 50
runs `/bin/parent`, whose parent is 1. Every query succeeds. The profile store
has no state (`Unit`); `active` is the table behind `GetActiveProfileByPath`,
`FindProfileByPath` finds nothing. -/
def testEnv (active : String → Option Profile × Option Err)
    (newProcess : Int → Option Err) (create : String → Process → Option Err) : Env Unit :=
  { GOOS := "linux"
    NewProcess := newProcess
    Uids := fun _ => .ok 1000
    Username := fun _ => ("user", none)
    Ppid := fun pid => if pid = 100 then .ok 50 else .ok 1
    Exe := fun pid => (if pid = 100 then "/bin/child" else "/bin/parent", none)
    Cmdline := fun _ => ("", none)
    Name := fun _ => ("", none)
    Parent := fun pid => if pid = 100 then .ok 50 else .ok 1
    GetActiveProfileByPath := fun s path => (active path, s)
    FindProfileByPath := fun s _ _ => ((none, some Err.ErrNotFound), s)
    GetNewPath := fun _ cmd _ => .ok cmd
    SaveProfile := fun s _ => s
    GetFileInfo := fun _ => none
    CreateObject := create
    Internet := 1, LocalNet := 2, Directconnect := 3, Service := 4 }

/-- The state before anything was resolved. -/
def emptyWorld : World Unit := { processes := [], profiles := (), osQueries := 0, lookups := 0 }

/-- A profile with a framework of `n` hops that merges or not. -/
def frameworkProfile (n : Nat) (merge : Bool) : Profile :=
  { Key := "fw", Name := "wrapper", Default := false, Icon := "", Flags := [],
    Framework := some { FindParent := n, MergeWithParent := merge, Rule := "" } }

/-- A profile without framework. -/
def plainProfile : Profile :=
  { Key := "pk", Name := "plain", Default := false, Icon := "", Flags := [], Framework := none }

/-- The profile table that binds `p` to `/bin/child` and `plainProfile` to
every other path. -/
def childHas (p : Profile) : String → Option Profile × Option Err :=
  fun path => if path = "/bin/child" then (some p, none) else (some plainProfile, none)

/-- The profile table without any profile. -/
def allNotFound : String → Option Profile × Option Err :=
  fun _ => (none, some Err.ErrNotFound)

/-- Every handle can be obtained. -/
def handleOk : Int → Option Err := fun _ => none

/-- No handle can be obtained. -/
def handleFails : Int → Option Err := fun _ => some (Err.other "no such process")

/-- The database stores every record. -/
def createOk : String → Process → Option Err := fun _ _ => none

/-- The database refuses every record. -/
def createFails : String → Process → Option Err := fun _ _ => some (Err.other "read-only database")

/-- The test machine with a profile store that has a state, a counter:
`GetActiveProfileByPath` finds nothing and `FindProfileByPath` creates a plain
profile whose key is the counter, and counts on. -/
def countingEnv (create : String → Process → Option Err) : Env Nat :=
  { GOOS := "linux"
    NewProcess := handleOk
    Uids := fun _ => .ok 1000
    Username := fun _ => ("user", none)
    Ppid := fun pid => if pid = 100 then .ok 50 else .ok 1
    Exe := fun pid => (if pid = 100 then "/bin/child" else "/bin/parent", none)
    Cmdline := fun _ => ("", none)
    Name := fun _ => ("", none)
    Parent := fun pid => if pid = 100 then .ok 50 else .ok 1
    GetActiveProfileByPath := fun s _ => ((none, some Err.ErrNotFound), s)
    FindProfileByPath := fun s _ _ => ((some { plainProfile with Key := toString s }, none), s + 1)
    GetNewPath := fun _ cmd _ => .ok cmd
    SaveProfile := fun s _ => s
    GetFileInfo := fun _ => none
    CreateObject := create
    Internet := 1, LocalNet := 2, Directconnect := 3, Service := 4 }

/-- The state before anything was resolved, the counter of the profile store
at 1. -/
def countingWorld : World Nat := { processes := [], profiles := 1, osQueries := 0, lookups := 0 }

end process

namespace profile

/-! ## Data model of `profile/active.go` -/

/-- Modelled from the spec: the `Profile` record of package `profile`, whose
declaration is outside the sources. The registry reads the field `ID` only;
`Name` stands for the rest of the record. -/
structure Profile where
  ID : String
  Name : String
  deriving DecidableEq, Repr

/-- Modelled from the spec: the `Set` record of package `profile`, whose
declaration is outside the sources: the array `profiles` of exactly three
layers, each a nullable `*Profile`. `profiles0` is `profiles[0]` and so on. -/
structure Set where
  profiles0 : Option Profile
  profiles1 : Option Profile
  profiles2 : Option Profile
  deriving DecidableEq, Repr

/-- A Go `map[string]*Set` as an association list; a `*Set` is an address. -/
abbrev SetMap := List (String × Nat)

/-- Go `m[key]` with the comma-ok form. -/
def mapGet (m : SetMap) (key : String) : Option Nat :=
  (m.find? (fun e => e.1 == key)).map Prod.snd

/-- Go `delete(m, key)`. -/
def mapDelete (m : SetMap) (key : String) : SetMap :=
  m.filter (fun e => e.1 != key)

/-- Go `m[key] = set`. -/
def mapSet (m : SetMap) (key : String) (set : Nat) : SetMap :=
  (key, set) :: mapDelete m key

/-- The state the four functions work on: the records behind the `*Set`
pointers (a heap indexed by address) and the package variable
`activeProfileSets`. -/
structure Registry where
  sets : Nat → Set
  activeProfileSets : SetMap

/-- `activateProfileSet` (lines 10-16). `none` is the nil-pointer panic of
`set.profiles[0].ID` when layer 0 is nil. -/
def activateProfileSet (set : Nat) (st : Registry) : Option Registry :=
  match (st.sets set).profiles0 with
  | none => none
  | some p0 => some { st with activeProfileSets := mapSet st.activeProfileSets p0.ID set }

/-- `DeactivateProfileSet` (lines 19-25). `none` is the nil-pointer panic of
`set.profiles[0].ID` when layer 0 is nil. -/
def DeactivateProfileSet (set : Nat) (st : Registry) : Option Registry :=
  match (st.sets set).profiles0 with
  | none => none
  | some p0 => some { st with activeProfileSets := mapDelete st.activeProfileSets p0.ID }

/-- `updateActiveUserProfile` (lines 27-36). -/
def updateActiveUserProfile (profile : Profile) (st : Registry) : Registry :=
  match mapGet st.activeProfileSets profile.ID with
  | some activeSet =>
    { st with sets := Function.update st.sets activeSet
                { st.sets activeSet with profiles0 := some profile } }
  | none => st

/-- The body of the loop of `updateActiveStampProfile` (lines 43-52) for one
`activeSet`. -/
def stampOne (profile : Profile) (sets : Nat → Set) (activeSet : Nat) : Nat → Set :=
  match (sets activeSet).profiles2 with
  | some activeProfile =>
    if activeProfile.ID = profile.ID then
      Function.update sets activeSet { sets activeSet with profiles2 := some profile }
    else sets
  | none => sets

/-- `updateActiveStampProfile` (lines 38-54): the loop over all entries of the
map, here in the order of the association list. -/
def updateActiveStampProfile (profile : Profile) (st : Registry) : Registry :=
  { st with sets := st.activeProfileSets.foldl (fun sets e => stampOne profile sets e.2) st.sets }

/-- A call of one of the four functions. -/
inductive Op where
  | activate (set : Nat)
  | deactivate (set : Nat)
  | updateUser (profile : Profile)
  | updateStamp (profile : Profile)
  deriving DecidableEq, Repr

/-- One call; `none` when it panics. -/
def Op.apply (st : Registry) : Op → Option Registry
  | .activate set => activateProfileSet set st
  | .deactivate set => DeactivateProfileSet set st
  | .updateUser profile => some (updateActiveUserProfile profile st)
  | .updateStamp profile => some (updateActiveStampProfile profile st)

/-- A sequence of calls, first to last. -/
def run : List Op → Registry → Option Registry
  | [], st => some st
  | op :: ops, st =>
    match op.apply st with
    | none => none
    | some st1 => run ops st1

/-- The registry before any call: nothing is registered. -/
def Registry.empty (sets : Nat → Set) : Registry := { sets := sets, activeProfileSets := [] }

/-- Whether layer 2 of a set holds a profile with the ID of `profile`. -/
def stampMatches (profile : Profile) (s : Set) : Bool :=
  match s.profiles2 with
  | some activeProfile => activeProfile.ID == profile.ID
  | none => false

/-- The key invariant of the registry: every entry's key is the ID of the
layer-0 profile of the set stored under it. -/
def KeysMatch (st : Registry) : Prop :=
  ∀ key set, (key, set) ∈ st.activeProfileSets →
    ∃ p0, (st.sets set).profiles0 = some p0 ∧ p0.ID = key

/-! ### Test fixtures -/

/-- A profile with the given ID and name. -/
def prof (id name : String) : Profile := { ID := id, Name := name }

/-- A heap: sets 0 and 1 both have a layer-0 profile with ID "X", set 2 has
the ID "Y"; sets 0 and 2 share the stamp profile "S" in layer 2. -/
def testSets : Nat → Set := fun a =>
  if a = 0 then { profiles0 := some (prof "X" "first"), profiles1 := none,
                  profiles2 := some (prof "S" "stamp") }
  else if a = 1 then { profiles0 := some (prof "X" "second"), profiles1 := none,
                       profiles2 := none }
  else { profiles0 := some (prof "Y" "third"), profiles1 := none,
         profiles2 := some (prof "S" "stamp") }

/-- Set 0 is registered under "X". -/
def testRegistry : Registry := { sets := testSets, activeProfileSets := [("X", 0)] }

/-- A sequence of calls on the test heap: activate set 0, replace its identity
layer, activate set 2, stamp, deactivate set 1 (which has the ID "X" too),
activate set 1. -/
def testOps : List Op :=
  [Op.activate 0, Op.updateUser (prof "X" "edited"), Op.activate 2,
   Op.updateStamp (prof "S" "new stamp"), Op.deactivate 1, Op.activate 1]

end profile

namespace updates

/-! ## Data model of `updates/latest.go` -/

/-- A Go string: its bytes. -/
abbrev GoString := List Nat

/-- The Go string of an ASCII literal. -/
def ascii (s : String) : GoString := s.toList.map Char.toNat

/-- Go `a < b` on strings: the byte-wise lexicographic order. `version >
storedVersion` of line 100 is `stringLess storedVersion version`. -/
def stringLess : GoString → GoString → Bool
  | [], [] => false
  | [], _ :: _ => true
  | _ :: _, [] => false
  | a :: as, b :: bs => if a < b then true else if b < a then false else stringLess as bs

/-- Go `strings.TrimPrefix`. -/
def TrimPrefix (s pre : GoString) : GoString :=
  if pre.isPrefixOf s then s.drop pre.length else s

/-- Go `strings.TrimLeft(s, "/")`: drop the leading bytes `/` (47). -/
def TrimLeftSlash (s : GoString) : GoString := s.dropWhile (fun b => b == 47)

/-- A Go `map[string]string` as an association list. -/
abbrev StringMap := List (GoString × GoString)

/-- Go `m[key]` with the comma-ok form. -/
def mapGet (m : StringMap) (key : GoString) : Option GoString :=
  (m.find? (fun e => e.1 == key)).map Prod.snd

/-- Go `m[key] = value`. -/
def mapSet (m : StringMap) (key value : GoString) : StringMap :=
  (key, value) :: m.filter (fun e => e.1 != key)

/-- One call of the walk function by `filepath.Walk`: the path, whether
`info.IsDir()`, and the error handed in. -/
structure Visit where
  path : GoString
  isDir : Bool
  err : Option String
  deriving DecidableEq, Repr

/-- The variables the closure of `ScanForLatest` works on. -/
structure ScanState where
  latest : StringMap
  lastError : Option String
  added : Nat
  deriving DecidableEq, Repr

/-- The walk function of `ScanForLatest` (lines 77-108): the new state and
the error it returns to `filepath.Walk`. `getIdentifierAndVersion` is outside
the sources and taken as a parameter; it returns `(identifierPath, version,
ok)`. -/
def walkFn (getIdentifierAndVersion : GoString → GoString × GoString × Bool)
    (baseDir : GoString) (hardFail : Bool) (st : ScanState) (v : Visit) :
    ScanState × Option String :=
  match v.err with
  | some err =>
    let st := { st with lastError := some err }
    if hardFail then (st, some err) else (st, none)
  | none =>
    let st := if !v.isDir then { st with added := st.added + 1 } else st
    let relativePath := TrimLeftSlash (TrimPrefix v.path baseDir)
    let r := getIdentifierAndVersion relativePath
    let identifierPath := r.1
    let version := r.2.1
    if !r.2.2 then (st, none)
    else
      match mapGet st.latest identifierPath with
      | some storedVersion =>
        if stringLess storedVersion version then
          ({ st with latest := mapSet st.latest identifierPath version }, none)
        else (st, none)
      | none => ({ st with latest := mapSet st.latest identifierPath version }, none)

/-- `filepath.Walk` over the visits it makes: it stops at the first error the
walk function returns. -/
def Walk (getIdentifierAndVersion : GoString → GoString × GoString × Bool)
    (baseDir : GoString) (hardFail : Bool) : List Visit → ScanState → ScanState
  | [], st => st
  | v :: vs, st =>
    match walkFn getIdentifierAndVersion baseDir hardFail st v with
    | (st1, some _) => st1
    | (st1, none) => Walk getIdentifierAndVersion baseDir hardFail vs st1

/-- `ScanForLatest` (lines 73-119) on the visits `filepath.Walk` makes under
`baseDir`. A nil map is `none`. -/
def ScanForLatest (getIdentifierAndVersion : GoString → GoString × GoString × Bool)
    (visits : List Visit) (baseDir : GoString) (hardFail : Bool) :
    Option StringMap × Option String :=
  let st := Walk getIdentifierAndVersion baseDir hardFail visits
    { latest := [], lastError := none, added := 0 }
  match st.lastError with
  | some lastError =>
    if hardFail then (none, some lastError)
    else if st.added = 0 then (some st.latest, some lastError)
    else (some st.latest, none)
  | none => (some st.latest, none)

/-- The versions found for the identifier `id`, in the order of the walk: the
visits without error, up to the one that stops the walk, on which
`getIdentifierAndVersion` reports `id`. -/
def versionsFound (getIdentifierAndVersion : GoString → GoString × GoString × Bool)
    (baseDir : GoString) (hardFail : Bool) (id : GoString) : List Visit → List GoString
  | [] => []
  | v :: vs =>
    match v.err with
    | some _ =>
      if hardFail then []
      else versionsFound getIdentifierAndVersion baseDir hardFail id vs
    | none =>
      let r := getIdentifierAndVersion (TrimLeftSlash (TrimPrefix v.path baseDir))
      if r.2.2 = true ∧ r.1 = id then
        r.2.1 :: versionsFound getIdentifierAndVersion baseDir hardFail id vs
      else versionsFound getIdentifierAndVersion baseDir hardFail id vs

/-- One step of keeping the greatest version: what lines 97-105 leave under
an identifier that held `cur` when the version `v` comes in. -/
def pick (cur : Option GoString) (v : GoString) : Option GoString :=
  match cur with
  | none => some v
  | some storedVersion => if stringLess storedVersion v then some v else some storedVersion

/-- The numbers of a dotted version, `1.10.0` giving `[1, 10, 0]`: the
segments between the bytes `.` (46) read as decimal numbers. `cur` is the
segment being read. -/
def versionNumbers : GoString → Nat → List Nat
  | [], cur => [cur]
  | b :: bs, cur => if b = 46 then cur :: versionNumbers bs 0 else versionNumbers bs (cur * 10 + (b - 48))

/-- The numeric order of versions: lexicographic on the numbers. -/
def numbersLess : List Nat → List Nat → Bool
  | [], [] => false
  | [], _ :: _ => true
  | _ :: _, [] => false
  | a :: as, b :: bs => if a < b then true else if b < a then false else numbersLess as bs

/-- Whether version `a` is numerically older than version `b`. -/
def numericallyOlder (a b : GoString) : Bool :=
  numbersLess (versionNumbers a 0) (versionNumbers b 0)

/-! ### Test fixtures -/

/-- A stand-in for `getIdentifierAndVersion`: the path `name/version` gives
the identifier `name` and the version behind the first `/`; a path without `/`
is no versioned file. -/
def testParse (relativePath : GoString) : GoString × GoString × Bool :=
  let name := relativePath.takeWhile (fun b => b != 47)
  let rest := relativePath.dropWhile (fun b => b != 47)
  match rest with
  | [] => ([], [], false)
  | _ :: version => (name, version, true)

/-- A file without error. -/
def file (path : String) : Visit := { path := ascii path, isDir := false, err := none }

/-- A walk that meets version 1.9.0 of `tool` before version 1.10.0. -/
def testVisits : List Visit := [file "/u/tool/1.9.0", file "/u/tool/1.10.0"]

end updates

/-! # Theorems -/

namespace process

/-! ## Properties of the matching loop -/

theorem matchLoop_notFound {σ : Type} (env : Env σ) (pInfoPid : Int)
    (hA : ∀ s path, (env.GetActiveProfileByPath s path).1 = (none, some Err.ErrNotFound))
    (hF : ∀ s path home, (env.FindProfileByPath s path home).1 = (none, some Err.ErrNotFound)) :
    ∀ fuel new path iter (w : World σ), iter ≤ 10 → 11 ≤ fuel + iter →
      ∃ w1, matchLoop env pInfoPid fuel new path none iter w = .done new w1 ∧
        w1.lookups = w.lookups + (10 - iter) ∧ w1.processes = w.processes ∧
        w1.osQueries = w.osQueries := by
  intro fuel
  induction fuel with
  | zero => intro new path iter w h1 h2; omega
  | succ k ih =>
    intro new path iter w h1 h2
    rw [matchLoop]
    by_cases h10 : iter + 1 > 10
    · refine ⟨w, ?_, ?_, rfl, rfl⟩
      · simp [h10]
      · omega
    · have hr1 := hA w.profiles path
      have hr2 := hF (env.GetActiveProfileByPath w.profiles path).2 path new.UserHome
      simp only [lookupProfile, Option.isSome_none, Bool.false_eq_true, if_false, h10, hr1, hr2,
        if_true]
      obtain ⟨w1, e1, e2, e3, e4⟩ := ih new path (iter + 1)
        { w with profiles := (env.FindProfileByPath (env.GetActiveProfileByPath w.profiles path).2
                    path new.UserHome).2, lookups := w.lookups + 1 } (by omega) (by omega)
      refine ⟨w1, e1, ?_, e3, e4⟩
      simp only at e2
      omega

theorem matchLoop_ne_outOfFuel {σ : Type} (env : Env σ) (pInfoPid : Int) :
    ∀ fuel new path ap iter (w : World σ), 1 ≤ fuel → 11 ≤ fuel + iter →
      matchLoop env pInfoPid fuel new path ap iter w ≠ .outOfFuel := by
  intro fuel
  induction fuel with
  | zero => intro new path ap iter w h1; omega
  | succ k ih =>
    intro new path ap iter w _ h2
    rw [matchLoop]
    by_cases hap : ap.isSome = true
    · simp [hap]
    · by_cases h10 : iter + 1 > 10
      · simp [hap, h10]
      · have hk : 1 ≤ k := by omega
        have hk2 : 11 ≤ k + (iter + 1) := by omega
        simp only [hap, h10, if_false, Bool.false_eq_true]
        repeat' split
        all_goals first
          | exact ih _ _ _ _ _ hk hk2
          | exact fun h => LoopExit.noConfusion h

theorem matchLoop_done_pid {σ : Type} (env : Env σ) (pInfoPid : Int) :
    ∀ fuel new path ap iter (w : World σ) new1 w1,
      matchLoop env pInfoPid fuel new path ap iter w = .done new1 w1 → new1.Pid = new.Pid := by
  intro fuel
  induction fuel with
  | zero => intro new path ap iter w new1 w1 h; simp [matchLoop] at h
  | succ k ih =>
    intro new path ap iter w new1 w1 h
    rw [matchLoop] at h
    by_cases hap : ap.isSome = true
    · simp only [hap, if_true, LoopExit.done.injEq] at h
      rw [← h.1]
    · by_cases h10 : iter + 1 > 10
      · simp only [hap, h10, if_true, if_false, Bool.false_eq_true, LoopExit.done.injEq] at h
        rw [← h.1]
      · simp only [hap, h10, if_false, Bool.false_eq_true] at h
        repeat' split at h
        all_goals first
          | exact ih _ _ _ _ _ _ _ h
          | exact (ih _ _ _ _ _ _ _ h).trans rfl
          | exact LoopExit.noConfusion h

theorem parentLoop_withCreate {σ : Type} (env : Env σ) (c : String → Process → Option Err)
    (pInfoPid : Int) : ∀ k ppid (w : World σ),
      parentLoop (env.withCreate c) pInfoPid k ppid w = parentLoop env pInfoPid k ppid w := by
  intro k
  induction k with
  | zero => intro ppid w; rfl
  | succ k ih =>
    intro ppid w
    simp only [parentLoop, Env.withCreate, ih]
    split <;> first | rfl | exact ih _ _

theorem matchLoop_withCreate {σ : Type} (env : Env σ) (c : String → Process → Option Err)
    (pInfoPid : Int) : ∀ fuel new path ap iter (w : World σ),
      matchLoop (env.withCreate c) pInfoPid fuel new path ap iter w
        = matchLoop env pInfoPid fuel new path ap iter w := by
  intro fuel
  induction fuel with
  | zero => intro new path ap iter w; rfl
  | succ k ih =>
    intro new path ap iter w
    simp only [matchLoop, ih, parentLoop_withCreate]
    rfl

/-! ## Properties of `GetOrFindProcess` -/

theorem gatherInfo_pid {σ : Type} (env : Env σ) (pInfoPid : Int) (new : Process) (w : World σ) :
    (gatherInfo env pInfoPid new w).1.Pid = new.Pid := by
  unfold gatherInfo
  repeat' split
  all_goals rfl

theorem gatherInfo_profile {σ : Type} (env : Env σ) (pInfoPid : Int) (new : Process)
    (w : World σ) :
    (gatherInfo env pInfoPid new w).1.Profile = new.Profile ∧
      (gatherInfo env pInfoPid new w).1.ProfileKey = new.ProfileKey := by
  unfold gatherInfo
  repeat' split
  all_goals exact ⟨rfl, rfl⟩

theorem gatherInfo_world {σ : Type} (env : Env σ) (pInfoPid : Int) (new : Process)
    (w : World σ) :
    (gatherInfo env pInfoPid new w).2.lookups = w.lookups ∧
      (gatherInfo env pInfoPid new w).2.processes = w.processes := by
  unfold gatherInfo
  repeat' split
  all_goals exact ⟨rfl, rfl⟩

/-- More recursion depth does not change an answer. -/
theorem GetOrFindProcess_fuel_succ {σ : Type} (env : Env σ) :
    ∀ fuel pid (w : World σ), GetOrFindProcess env fuel pid w ≠ .outOfFuel →
      GetOrFindProcess env (fuel + 1) pid w = GetOrFindProcess env fuel pid w := by
  intro fuel
  induction fuel with
  | zero => intro pid w h; exact absurd rfl h
  | succ k ih =>
    intro pid w h
    rw [GetOrFindProcess] at h
    conv_lhs => rw [GetOrFindProcess]
    conv_rhs => rw [GetOrFindProcess]
    cases hg : GetProcess w (Itoa pid) with
    | some pr => rfl
    | none =>
      simp only [hg] at h ⊢
      by_cases hs : isSystemPid env pid = true
      · simp only [hs, if_true]
      · simp only [hs, if_false, Bool.false_eq_true] at h ⊢
        cases hn : env.NewProcess (toInt32 pid) with
        | some e => rfl
        | none =>
          simp only [hn] at h ⊢
          cases hm : matchLoop env (toInt32 pid) 11
              (gatherInfo env (toInt32 pid) (Process.zero pid) w.tick).1
              (gatherInfo env (toInt32 pid) (Process.zero pid) w.tick).1.Path none 0
              (gatherInfo env (toInt32 pid) (Process.zero pid) w.tick).2 with
          | done new w1 => rfl
          | fail e w1 => rfl
          | merge ppid w1 =>
            simp only [hm] at h ⊢
            exact ih ppid w1 h
          | outOfFuel => rfl

theorem GetProcess_Create {σ : Type} (env : Env σ) (m : Process) (name : String) (w : World σ)
    (h : env.CreateObject name m = none) :
    GetProcess (m.Create env name w).2 name = some m := by
  simp [Process.Create, h, GetProcess]

/-- C5 (amended): the process and the error that GetOrFindProcess returns do
not depend on what Process.Create answers. The result of the final Create is
dropped, so a call whose Create fails returns the same process with a nil error
as the call whose Create succeeds. -/
theorem GetOrFindProcess_answer_withCreate {σ : Type} (env : Env σ)
    (c : String → Process → Option Err) : ∀ fuel pid (w : World σ),
      (GetOrFindProcess (env.withCreate c) fuel pid w).answer
        = (GetOrFindProcess env fuel pid w).answer := by
  intro fuel
  induction fuel with
  | zero => intro pid w; rfl
  | succ k ih =>
    intro pid w
    have hsys : isSystemPid (env.withCreate c) pid = isSystemPid env pid := rfl
    have hnp : (env.withCreate c).NewProcess = env.NewProcess := rfl
    have hgi : gatherInfo (env.withCreate c) = gatherInfo env := rfl
    have hfi : (env.withCreate c).GetFileInfo = env.GetFileInfo := rfl
    have hk : kernelProcess (env.withCreate c) pid = kernelProcess env pid := rfl
    conv_lhs => rw [GetOrFindProcess]
    conv_rhs => rw [GetOrFindProcess]
    simp only [hsys, hnp, hgi, hfi, hk, matchLoop_withCreate]
    cases hg : GetProcess w (Itoa pid) with
    | some pr => rfl
    | none =>
      simp only
      by_cases hs : isSystemPid env pid = true
      · simp only [hs, if_true]
        rfl
      · simp only [hs, if_false, Bool.false_eq_true]
        cases hn : env.NewProcess (toInt32 pid) with
        | some e => rfl
        | none =>
          simp only
          cases hm : matchLoop env (toInt32 pid) 11
              (gatherInfo env (toInt32 pid) (Process.zero pid) w.tick).1
              (gatherInfo env (toInt32 pid) (Process.zero pid) w.tick).1.Path none 0
              (gatherInfo env (toInt32 pid) (Process.zero pid) w.tick).2 with
          | done new w1 => rfl
          | fail e w1 => rfl
          | merge ppid w1 => exact ih ppid w1
          | outOfFuel => rfl

/-- C5 (counterexample): on the test machine with a database that refuses
every record, resolving the uncached pid 100 (plain profile on its path) makes
the final Create fail, yet the call returns the process with a nil error, not
that error. -/
theorem GetOrFindProcess_create_failure_dropped :
    GetProcess emptyWorld (Itoa 100) = none ∧
    (Process.Create (testEnv (childHas plainProfile) handleOk createFails)
        (Process.zero 100) (Itoa 100) emptyWorld).1 = some (Err.other "read-only database") ∧
    (GetOrFindProcess (testEnv (childHas plainProfile) handleOk createFails) 1 100
        emptyWorld).answer
      = some (.ok { Process.zero 100 with
          UserID := 1000, UserName := "user", ParentPid := 50, Path := "/bin/child",
          ProfileKey := "pk", Profile := some plainProfile }) := by
  refine ⟨by decide, by decide, ?_⟩
  rfl

/-- C2 (amended): for every uncached, non-system pid whose handle
processInfo.NewProcess can be obtained, if every profile lookup
(GetActiveProfileByPath and its FindProfileByPath fallback) returns NotFound
with no profile, GetOrFindProcess returns at recursion depth one, without
error, after exactly 10 matching attempts (hence at most 10), a process whose
Profile is nil and whose ProfileKey is empty. -/
theorem GetOrFindProcess_notFound_unprofiled {σ : Type} (env : Env σ) (fuel : Nat) (pid : Int)
    (w : World σ)
    (hcache : GetProcess w (Itoa pid) = none)
    (hsys : isSystemPid env pid = false)
    (hnew : env.NewProcess (toInt32 pid) = none)
    (hA : ∀ s path, (env.GetActiveProfileByPath s path).1 = (none, some Err.ErrNotFound))
    (hF : ∀ s path home, (env.FindProfileByPath s path home).1 = (none, some Err.ErrNotFound)) :
    ∃ p w1, GetOrFindProcess env (fuel + 1) pid w = .ok p w1 ∧
      p.Profile = none ∧ p.ProfileKey = "" ∧ p.Pid = pid ∧
      w1.lookups = w.lookups + 10 ∧ w1.lookups ≤ w.lookups + 10 := by
  obtain ⟨w1, e1, e2, -, -⟩ := matchLoop_notFound env (toInt32 pid) hA hF 11
    (gatherInfo env (toInt32 pid) (Process.zero pid) w.tick).1
    (gatherInfo env (toInt32 pid) (Process.zero pid) w.tick).1.Path 0
    (gatherInfo env (toInt32 pid) (Process.zero pid) w.tick).2 (by omega) (by omega)
  have hl := (gatherInfo_world env (toInt32 pid) (Process.zero pid) w.tick).1
  have hp := gatherInfo_profile env (toInt32 pid) (Process.zero pid) w.tick
  have hpid := gatherInfo_pid env (toInt32 pid) (Process.zero pid) w.tick
  have hw : w1.lookups = w.lookups + 10 := by
    rw [e2, hl]; rfl
  have hG : GetOrFindProcess env (fuel + 1) pid w
      = saveAndReturn env
          { (gatherInfo env (toInt32 pid) (Process.zero pid) w.tick).1 with
            FileInfo := env.GetFileInfo
              (gatherInfo env (toInt32 pid) (Process.zero pid) w.tick).1.Path } w1 := by
    rw [GetOrFindProcess]
    simp only [hcache, hsys, hnew, e1, Bool.false_eq_true, if_false]
  have hc : ∀ (m : Process) (name : String), (m.Create env name w1).2.lookups = w1.lookups := by
    intro m name
    simp only [Process.Create]
    split <;> rfl
  rw [hG]
  refine ⟨_, _, rfl, hp.1, hp.2, hpid, ?_, ?_⟩
  · rw [hc, hw]
  · rw [hc, hw]

/-- C2 (witness): the test machine without any profile, pid 100. -/
theorem GetOrFindProcess_notFound_unprofiled_witness :
    ∃ p w1, GetOrFindProcess (testEnv allNotFound handleOk createOk) (0 + 1) 100 emptyWorld
        = .ok p w1 ∧
      p.Profile = none ∧ p.ProfileKey = "" ∧ p.Pid = 100 ∧
      w1.lookups = emptyWorld.lookups + 10 ∧ w1.lookups ≤ emptyWorld.lookups + 10 :=
  GetOrFindProcess_notFound_unprofiled (testEnv allNotFound handleOk createOk) 0 100 emptyWorld
    (by decide) (by decide) (by decide) (fun _ _ => rfl) (fun _ _ _ => rfl)

/-- C2 (counterexample): on the test machine without any profile and where no
process handle can be obtained, pid 7 is uncached and is not the system pid,
every lookup would return NotFound, and yet no recursion depth makes
GetOrFindProcess return a process: the call returns the error of NewProcess. -/
theorem GetOrFindProcess_notFound_handle_error :
    GetProcess emptyWorld (Itoa 7) = none ∧
    isSystemPid (testEnv allNotFound handleFails createOk) 7 = false ∧
    (GetOrFindProcess (testEnv allNotFound handleFails createOk) 1 7 emptyWorld).answer
      = some (.error (Err.other "no such process")) ∧
    ¬ ∃ fuel p w1,
      GetOrFindProcess (testEnv allNotFound handleFails createOk) fuel 7 emptyWorld = .ok p w1 := by
  refine ⟨by decide, by decide, rfl, ?_⟩
  rintro ⟨fuel, p, w1, h⟩
  cases fuel with
  | zero => exact Ret.noConfusion h
  | succ k =>
    have h2 : GetOrFindProcess (testEnv allNotFound handleFails createOk) (k + 1) 7 emptyWorld
        = .error (Err.other "no such process") emptyWorld.tick := rfl
    rw [h2] at h
    exact Ret.noConfusion h

/-! ## Two calls in succession -/

theorem parentLoop_result {σ : Type} (env : Env σ) (pInfoPid : Int) :
    ∀ k ppid (w w1 : World σ),
      (parentLoop env pInfoPid k ppid w).1 = (parentLoop env pInfoPid k ppid w1).1 := by
  intro k
  induction k with
  | zero => intro ppid w w1; rfl
  | succ k ih =>
    intro ppid w w1
    rw [parentLoop, parentLoop]
    cases env.Parent pInfoPid with
    | error e => rfl
    | ok parentPid => exact ih _ _ _

theorem parentLoop_processes {σ : Type} (env : Env σ) (pInfoPid : Int) :
    ∀ k ppid (w : World σ), (parentLoop env pInfoPid k ppid w).2.processes = w.processes := by
  intro k
  induction k with
  | zero => intro ppid w; rfl
  | succ k ih =>
    intro ppid w
    rw [parentLoop]
    cases env.Parent pInfoPid with
    | error e => rfl
    | ok parentPid => exact (ih _ _).trans rfl

/-- With a profile store of fixed answers the matching loop is left the same
way from every state. -/
theorem matchLoop_shape {σ : Type} (env : Env σ) (pInfoPid : Int) (hstore : StoreAnswersFixed env) :
    ∀ fuel new path ap iter (w w1 : World σ),
      (matchLoop env pInfoPid fuel new path ap iter w).shape
        = (matchLoop env pInfoPid fuel new path ap iter w1).shape := by
  intro fuel
  induction fuel with
  | zero => intro new path ap iter w w1; rfl
  | succ k ih =>
    intro new path ap iter w w1
    rw [matchLoop, matchLoop]
    by_cases hap : ap.isSome = true
    · simp only [hap, if_true]; rfl
    · by_cases h10 : iter + 1 > 10
      · simp only [hap, h10, if_true, if_false, Bool.false_eq_true]; rfl
      · simp only [hap, h10, if_false, Bool.false_eq_true]
        have hr := hstore w.profiles w1.profiles path new.UserHome
        generalize lookupProfile env w.profiles path new.UserHome = r at hr ⊢
        generalize lookupProfile env w1.profiles path new.UserHome = r1 at hr ⊢
        obtain ⟨⟨prof, err⟩, s⟩ := r
        obtain ⟨⟨prof1, err1⟩, s1⟩ := r1
        simp only [Prod.mk.injEq] at hr
        obtain ⟨hp, he⟩ := hr
        subst hp
        subst he
        simp only
        cases err with
        | some e => exact ih _ _ _ _ _ _
        | none =>
          cases prof with
          | none => exact ih _ _ _ _ _ _
          | some p =>
            simp only
            cases hfw : p.Framework with
            | none =>
              simp only
              split
              · exact ih _ _ _ _ _ _
              · exact ih _ _ _ _ _ _
            | some fw =>
              simp only
              by_cases hhops : fw.FindParent > 0
              · simp only [hhops, if_true]
                have hres := parentLoop_result env pInfoPid (fw.FindParent - 1) 0
                  { w with profiles := s, lookups := w.lookups + 1 }
                  { w1 with profiles := s1, lookups := w1.lookups + 1 }
                generalize parentLoop env pInfoPid (fw.FindParent - 1) 0
                  { w with profiles := s, lookups := w.lookups + 1 } = q at hres ⊢
                generalize parentLoop env pInfoPid (fw.FindParent - 1) 0
                  { w1 with profiles := s1, lookups := w1.lookups + 1 } = q1 at hres ⊢
                obtain ⟨res, wq⟩ := q
                obtain ⟨res1, wq1⟩ := q1
                simp only at hres
                subst hres
                cases res with
                | error e => rfl
                | ok ppid =>
                  simp only
                  cases fw.MergeWithParent with
                  | true => rfl
                  | false => exact ih _ _ _ _ _ _
              · simp only [hhops, if_false]
                cases env.GetNewPath fw new.CmdLine new.Cwd with
                | error e => rfl
                | ok newCommand => exact ih _ _ _ _ _ _

/-- The matching loop does not touch the ProcessStore. -/
theorem matchLoop_processes {σ : Type} (env : Env σ) (pInfoPid : Int) :
    ∀ fuel new path ap iter (w w1 : World σ),
      (matchLoop env pInfoPid fuel new path ap iter w).world? = some w1 →
        w1.processes = w.processes := by
  intro fuel
  induction fuel with
  | zero => intro new path ap iter w w1 h; exact Option.noConfusion h
  | succ k ih =>
    intro new path ap iter w w1 h
    rw [matchLoop] at h
    by_cases hap : ap.isSome = true
    · simp only [hap, if_true, LoopExit.world?, Option.some.injEq] at h
      rw [← h]
    · by_cases h10 : iter + 1 > 10
      · simp only [hap, h10, if_true, if_false, Bool.false_eq_true, LoopExit.world?,
          Option.some.injEq] at h
        rw [← h]
      · simp only [hap, h10, if_false, Bool.false_eq_true] at h
        generalize lookupProfile env w.profiles path new.UserHome = r at h
        obtain ⟨⟨prof, err⟩, s⟩ := r
        simp only at h
        cases err with
        | some e => exact (ih _ _ _ _ _ _ h).trans rfl
        | none =>
          cases prof with
          | none => exact (ih _ _ _ _ _ _ h).trans rfl
          | some p =>
            simp only at h
            cases hfw : p.Framework with
            | none =>
              simp only [hfw] at h
              split at h
              · exact (ih _ _ _ _ _ _ h).trans rfl
              · exact (ih _ _ _ _ _ _ h).trans rfl
            | some fw =>
              simp only [hfw] at h
              by_cases hhops : fw.FindParent > 0
              · simp only [hhops, if_true] at h
                have hpr := parentLoop_processes env pInfoPid (fw.FindParent - 1) 0
                  { w with profiles := s, lookups := w.lookups + 1 }
                generalize parentLoop env pInfoPid (fw.FindParent - 1) 0
                  { w with profiles := s, lookups := w.lookups + 1 } = q at h hpr
                obtain ⟨res, wq⟩ := q
                simp only at hpr
                cases res with
                | error e =>
                  simp only [LoopExit.world?, Option.some.injEq] at h
                  rw [← h]; exact hpr
                | ok ppid =>
                  simp only at h
                  cases hm : fw.MergeWithParent with
                  | true =>
                    simp only [hm, if_true, LoopExit.world?, Option.some.injEq] at h
                    rw [← h]; exact hpr
                  | false =>
                    simp only [hm, if_false, Bool.false_eq_true] at h
                    exact (ih _ _ _ _ _ _ h).trans hpr
              · simp only [hhops, if_false] at h
                cases hg : env.GetNewPath fw new.CmdLine new.Cwd with
                | error e =>
                  simp only [hg, LoopExit.world?, Option.some.injEq] at h
                  rw [← h]
                | ok newCommand =>
                  simp only [hg] at h
                  exact (ih _ _ _ _ _ _ h).trans rfl

theorem gatherInfo_process {σ : Type} (env : Env σ) (pInfoPid : Int) (new : Process)
    (w w1 : World σ) :
    (gatherInfo env pInfoPid new w).1 = (gatherInfo env pInfoPid new w1).1 := by
  unfold gatherInfo
  repeat' split
  all_goals rfl

theorem GetProcess_congr {σ : Type} (w w1 : World σ) (name : String)
    (h : w1.processes = w.processes) : GetProcess w1 name = GetProcess w name := by
  unfold GetProcess
  rw [h]

theorem GetProcess_Create_cases {σ : Type} (env : Env σ) (m : Process) (name key : String)
    (w : World σ) (h : GetProcess w key = none) :
    GetProcess (m.Create env name w).2 key = none ∨
      GetProcess (m.Create env name w).2 key = some m := by
  unfold Process.Create
  cases env.CreateObject name m with
  | some e => exact Or.inl h
  | none =>
    simp only
    by_cases hk : name = key
    · right
      simp [GetProcess, List.find?_cons, hk]
    · left
      have hnone : ∀ e ∈ w.processes, ¬ (e.1 = key) := by
        intro e he
        have := h
        unfold GetProcess at this
        simp only [Option.map_eq_none', List.find?_eq_none] at this
        simpa using this e he
      unfold GetProcess
      simp only [Option.map_eq_none', List.find?_eq_none, List.mem_cons]
      intro e he
      rcases he with he | he
      · rw [he]; simpa using hk
      · simpa using hnone e (List.mem_of_mem_filter he)

/-- The state before the matching loop holds the ProcessStore of the call. -/
theorem gatherInfo_store {σ : Type} (env : Env σ) (pInfoPid : Int) (new : Process)
    (w : World σ) : (gatherInfo env pInfoPid new w.tick).2.processes = w.processes :=
  (gatherInfo_world env pInfoPid new w.tick).2

/-- A call that returns `p` leaves under every key that was free either
nothing or `p`. -/
theorem GetOrFindProcess_store {σ : Type} (env : Env σ) :
    ∀ fuel pid (w w1 : World σ) (p : Process), GetOrFindProcess env fuel pid w = .ok p w1 →
      ∀ key, GetProcess w key = none →
        GetProcess w1 key = none ∨ GetProcess w1 key = some p := by
  intro fuel
  induction fuel with
  | zero => intro pid w w1 p h; exact Ret.noConfusion h
  | succ k ih =>
    intro pid w w1 p h key hkey
    rw [GetOrFindProcess] at h
    cases hg : GetProcess w (Itoa pid) with
    | some pr =>
      simp only [hg, Ret.ok.injEq] at h
      rw [← h.2]
      exact Or.inl hkey
    | none =>
      simp only [hg] at h
      by_cases hs : isSystemPid env pid = true
      · simp only [hs, if_true, saveAndReturn, Ret.ok.injEq] at h
        obtain ⟨hp, hw⟩ := h
        subst hp
        subst hw
        exact GetProcess_Create_cases env _ _ key w hkey
      · simp only [hs, if_false, Bool.false_eq_true] at h
        cases hn : env.NewProcess (toInt32 pid) with
        | some e =>
          simp only [hn] at h
          exact Ret.noConfusion h
        | none =>
          simp only [hn] at h
          have hst := gatherInfo_store env (toInt32 pid) (Process.zero pid) w
          cases hm : matchLoop env (toInt32 pid) 11
              (gatherInfo env (toInt32 pid) (Process.zero pid) w.tick).1
              (gatherInfo env (toInt32 pid) (Process.zero pid) w.tick).1.Path none 0
              (gatherInfo env (toInt32 pid) (Process.zero pid) w.tick).2 with
          | done new w0 =>
            have hw0 : w0.processes = w.processes :=
              (matchLoop_processes env _ _ _ _ _ _ _ w0 (by rw [hm]; rfl)).trans hst
            simp only [hm, saveAndReturn, Ret.ok.injEq] at h
            obtain ⟨hp, hw⟩ := h
            subst hp
            subst hw
            exact GetProcess_Create_cases env _ _ key w0
              ((GetProcess_congr w w0 key hw0).trans hkey)
          | fail e w0 =>
            simp only [hm] at h
            exact Ret.noConfusion h
          | merge ppid w0 =>
            have hw0 : w0.processes = w.processes :=
              (matchLoop_processes env _ _ _ _ _ _ _ w0 (by rw [hm]; rfl)).trans hst
            simp only [hm] at h
            exact ih ppid w0 w1 p h key ((GetProcess_congr w w0 key hw0).trans hkey)
          | outOfFuel =>
            simp only [hm] at h
            exact Ret.noConfusion h

/-- With a profile store of fixed answers, a call that returned `p` returns
`p` again from every state that holds the ProcessStore it left. -/
theorem GetOrFindProcess_again {σ : Type} (env : Env σ) (hstore : StoreAnswersFixed env) :
    ∀ fuel pid (w w1 : World σ) (p : Process), GetOrFindProcess env fuel pid w = .ok p w1 →
      ∀ w2 : World σ, w2.processes = w1.processes →
        ∃ w3, GetOrFindProcess env fuel pid w2 = .ok p w3 := by
  intro fuel
  induction fuel with
  | zero => intro pid w w1 p h; exact Ret.noConfusion h
  | succ k ih =>
    intro pid w w1 p h w2 hw2
    have hfirst := h
    rw [GetOrFindProcess] at h
    rw [GetOrFindProcess]
    cases hg : GetProcess w (Itoa pid) with
    | some pr =>
      simp only [hg, Ret.ok.injEq] at h
      obtain ⟨hp, hw⟩ := h
      subst hp
      subst hw
      rw [GetProcess_congr w w2 _ hw2, hg]
      exact ⟨w2, rfl⟩
    | none =>
      cases hg2 : GetProcess w2 (Itoa pid) with
      | some x =>
        have hx := GetOrFindProcess_store env (k + 1) pid w w1 p hfirst (Itoa pid) hg
        rw [← GetProcess_congr w1 w2 _ hw2, hg2] at hx
        rcases hx with hx | hx
        · exact Option.noConfusion hx
        · simp only [Option.some.injEq] at hx
          subst hx
          exact ⟨w2, rfl⟩
      | none =>
        simp only [hg] at h
        simp only
        by_cases hs : isSystemPid env pid = true
        · simp only [hs, if_true, saveAndReturn, Ret.ok.injEq] at h ⊢
          exact ⟨_, h.1, rfl⟩
        · simp only [hs, if_false, Bool.false_eq_true] at h ⊢
          cases hn : env.NewProcess (toInt32 pid) with
          | some e =>
            simp only [hn] at h
            exact Ret.noConfusion h
          | none =>
            simp only [hn] at h ⊢
            have hgi := gatherInfo_process env (toInt32 pid) (Process.zero pid) w2.tick w.tick
            have hst := gatherInfo_store env (toInt32 pid) (Process.zero pid) w
            have hst2 := gatherInfo_store env (toInt32 pid) (Process.zero pid) w2
            rw [hgi]
            have hsh := matchLoop_shape env (toInt32 pid) hstore 11
              (gatherInfo env (toInt32 pid) (Process.zero pid) w.tick).1
              (gatherInfo env (toInt32 pid) (Process.zero pid) w.tick).1.Path none 0
              (gatherInfo env (toInt32 pid) (Process.zero pid) w.tick).2
              (gatherInfo env (toInt32 pid) (Process.zero pid) w2.tick).2
            have hpr2 := matchLoop_processes env (toInt32 pid) 11
              (gatherInfo env (toInt32 pid) (Process.zero pid) w.tick).1
              (gatherInfo env (toInt32 pid) (Process.zero pid) w.tick).1.Path none 0
              (gatherInfo env (toInt32 pid) (Process.zero pid) w2.tick).2
            generalize matchLoop env (toInt32 pid) 11
              (gatherInfo env (toInt32 pid) (Process.zero pid) w.tick).1
              (gatherInfo env (toInt32 pid) (Process.zero pid) w.tick).1.Path none 0
              (gatherInfo env (toInt32 pid) (Process.zero pid) w2.tick).2 = e2 at hsh hpr2 ⊢
            cases hm : matchLoop env (toInt32 pid) 11
                (gatherInfo env (toInt32 pid) (Process.zero pid) w.tick).1
                (gatherInfo env (toInt32 pid) (Process.zero pid) w.tick).1.Path none 0
                (gatherInfo env (toInt32 pid) (Process.zero pid) w.tick).2 with
            | done new w0 =>
              rw [hm] at hsh
              simp only [hm, saveAndReturn, Ret.ok.injEq] at h
              cases e2 with
              | done new2 w02 =>
                simp only [LoopExit.shape, LoopShape.done.injEq] at hsh
                subst hsh
                simp only [saveAndReturn, Ret.ok.injEq]
                exact ⟨_, h.1, rfl⟩
              | fail e w02 => exact LoopShape.noConfusion hsh
              | merge ppid w02 => exact LoopShape.noConfusion hsh
              | outOfFuel => exact LoopShape.noConfusion hsh
            | fail e w0 =>
              simp only [hm] at h
              exact Ret.noConfusion h
            | merge ppid w0 =>
              rw [hm] at hsh
              simp only [hm] at h
              cases e2 with
              | done new2 w02 => exact LoopShape.noConfusion hsh
              | fail e w02 => exact LoopShape.noConfusion hsh
              | merge ppid2 w02 =>
                simp only [LoopExit.shape, LoopShape.merge.injEq] at hsh
                subst hsh
                simp only
                have hw02 : w02.processes = w1.processes :=
                  ((hpr2 w02 rfl).trans hst2).trans hw2
                exact ih ppid w0 w1 p h w02 hw02
              | outOfFuel => exact LoopShape.noConfusion hsh
            | outOfFuel =>
              simp only [hm] at h
              exact Ret.noConfusion h

theorem GetOrFindProcess_fuel_add {σ : Type} (env : Env σ) (fuel : Nat) (pid : Int)
    (w : World σ) (h : GetOrFindProcess env fuel pid w ≠ .outOfFuel) :
    ∀ n, GetOrFindProcess env (fuel + n) pid w = GetOrFindProcess env fuel pid w := by
  intro n
  induction n with
  | zero => rfl
  | succ n ih =>
    rw [← Nat.add_assoc, GetOrFindProcess_fuel_succ env (fuel + n) pid w (by rw [ih]; exact h), ih]

/-- C3 (amended): let GetOrFindProcess(pid) return a process without error.
When the profile store gives the same answers in every state, a second call in
the state the first one left returns, at every recursion depth from that of the
first call on, the same process, so the same ProfileKey, whether the first call
merged with a parent or not and whether its Process.Create failed or not. When
the first call did not leave through the merge with a parent and, if it had to
create the record, Process.Create under the decimal pid succeeded, the second
call is served from the ProcessStore: it returns the same process and leaves the
state as it is, so it makes no query to the OS process table. -/
theorem GetOrFindProcess_twice {σ : Type} (env : Env σ) (fuel : Nat) (pid : Int)
    (w w1 : World σ) (p : Process)
    (h1 : GetOrFindProcess env fuel pid w = .ok p w1) :
    (StoreAnswersFixed env → ∀ fuel2, fuel ≤ fuel2 →
      ∃ p2 w2, GetOrFindProcess env fuel2 pid w1 = .ok p2 w2 ∧
        p2 = p ∧ p2.ProfileKey = p.ProfileKey) ∧
    (mergesWithParent env pid w = false →
      (GetProcess w (Itoa pid) = none → env.CreateObject (Itoa pid) p = none) →
      ∀ fuel2, GetOrFindProcess env (fuel2 + 1) pid w1 = .ok p w1 ∧
        ∃ p2 w2, GetOrFindProcess env (fuel2 + 1) pid w1 = .ok p2 w2 ∧
          p2.ProfileKey = p.ProfileKey ∧ w2.osQueries = w1.osQueries) := by
  constructor
  · intro hstore fuel2 hle
    obtain ⟨w3, h3⟩ := GetOrFindProcess_again env hstore fuel pid w w1 p h1 w1 rfl
    obtain ⟨n, hn⟩ := Nat.exists_eq_add_of_le hle
    have hne : GetOrFindProcess env fuel pid w1 ≠ .outOfFuel := by
      rw [h3]; exact fun h => Ret.noConfusion h
    refine ⟨p, w3, ?_, rfl, rfl⟩
    rw [hn, GetOrFindProcess_fuel_add env fuel pid w1 hne n, h3]
  · intro hmerge hcreate fuel2
    have key : GetProcess w1 (Itoa pid) = some p := by
      cases fuel with
      | zero => exact Ret.noConfusion h1
      | succ k =>
        rw [GetOrFindProcess] at h1
        unfold mergesWithParent at hmerge
        cases hg : GetProcess w (Itoa pid) with
        | some pr =>
          simp only [hg, Ret.ok.injEq] at h1
          rw [← h1.1, ← h1.2]
          exact hg
        | none =>
          have hc := hcreate hg
          simp only [hg] at h1 hmerge
          by_cases hs : isSystemPid env pid = true
          · simp only [hs, if_true, saveAndReturn, Ret.ok.injEq] at h1
            rw [← h1.2]
            have hp : (kernelProcess env pid).Pid = pid := rfl
            rw [hp, h1.1]
            rw [← h1.1] at hc
            rw [← h1.1]
            exact GetProcess_Create env _ _ _ hc
          · simp only [hs, if_false, Bool.false_eq_true] at h1 hmerge
            cases hn : env.NewProcess (toInt32 pid) with
            | some e =>
              simp only [hn] at h1
              exact Ret.noConfusion h1
            | none =>
              simp only [hn] at h1 hmerge
              cases hm : matchLoop env (toInt32 pid) 11
                  (gatherInfo env (toInt32 pid) (Process.zero pid) w.tick).1
                  (gatherInfo env (toInt32 pid) (Process.zero pid) w.tick).1.Path none 0
                  (gatherInfo env (toInt32 pid) (Process.zero pid) w.tick).2 with
              | done new w0 =>
                simp only [hm, saveAndReturn, Ret.ok.injEq] at h1
                have hpid : new.Pid = pid :=
                  (matchLoop_done_pid env _ _ _ _ _ _ _ _ _ hm).trans
                    (gatherInfo_pid env (toInt32 pid) (Process.zero pid) w.tick)
                obtain ⟨hp1, hw1⟩ := h1
                subst hp1
                subst hw1
                have hI : Itoa new.Pid = Itoa pid := by rw [hpid]
                show GetProcess (Process.Create env _ (Itoa new.Pid) w0).2 (Itoa pid) = _
                rw [hI]
                exact GetProcess_Create env _ _ _ hc
              | fail e w0 =>
                simp only [hm] at h1
                exact Ret.noConfusion h1
              | merge ppid w0 =>
                simp only [hm] at hmerge
                exact Bool.noConfusion hmerge
              | outOfFuel =>
                simp only [hm] at h1
                exact Ret.noConfusion h1
    have h2 : GetOrFindProcess env (fuel2 + 1) pid w1 = .ok p w1 := by
      rw [GetOrFindProcess]
      simp only [key]
    exact ⟨h2, p, w1, h2, rfl, rfl⟩

/-- C3 (witness): on the test machine, pid 100 with a framework profile that
merges with the parent (both calls return the process of pid 50), and pid 100
with a plain profile (the second call is served from the ProcessStore). -/
theorem GetOrFindProcess_twice_witness :
    (∃ p w1, GetOrFindProcess (testEnv (childHas (frameworkProfile 2 true)) handleOk createOk) 2
        100 emptyWorld = .ok p w1 ∧ p.Pid = 50 ∧
      ∃ p2 w2, GetOrFindProcess (testEnv (childHas (frameworkProfile 2 true)) handleOk createOk) 2
          100 w1 = .ok p2 w2 ∧ p2 = p ∧ p2.ProfileKey = p.ProfileKey) ∧
    (∃ p w1, GetOrFindProcess (testEnv (childHas plainProfile) handleOk createOk) 1 100 emptyWorld
        = .ok p w1 ∧
      GetOrFindProcess (testEnv (childHas plainProfile) handleOk createOk) (0 + 1) 100 w1
        = .ok p w1 ∧
      ∃ p2 w2, GetOrFindProcess (testEnv (childHas plainProfile) handleOk createOk) (0 + 1) 100 w1
          = .ok p2 w2 ∧
        p2.ProfileKey = p.ProfileKey ∧ w2.osQueries = w1.osQueries) :=
  ⟨⟨_, _, rfl, rfl,
     (GetOrFindProcess_twice (testEnv (childHas (frameworkProfile 2 true)) handleOk createOk) 2
        100 emptyWorld _ _ rfl).1 (fun _ _ _ _ => rfl) 2 (le_refl 2)⟩,
   ⟨_, _, rfl,
     (GetOrFindProcess_twice (testEnv (childHas plainProfile) handleOk createOk) 1 100
        emptyWorld _ _ rfl).2 (by decide) (fun _ => rfl) 0⟩⟩

/-- C3 (counterexample): on the test machine the path of pid 100 carries a
framework profile with FindParent = 2 and MergeWithParent = true. The first
call returns without error the process of the parent 50 after 15 queries to the
OS process table; the second call, in the state the first one left, finds no
record under "100" and makes 8 more queries. With a plain profile and a database
that refuses every record the second call repeats all 7 queries as well. And
with a profile store whose FindProfileByPath creates a new profile at every
call, and the same database, nothing touches the store between the two calls,
yet the first returns the ProfileKey "1" and the second the ProfileKey "2". -/
theorem GetOrFindProcess_twice_queries_again :
    ((GetOrFindProcess (testEnv (childHas (frameworkProfile 2 true)) handleOk createOk) 2 100
        emptyWorld).process?.map Process.Pid = some 50 ∧
     (GetOrFindProcess (testEnv (childHas (frameworkProfile 2 true)) handleOk createOk) 2 100
        emptyWorld).world?.map World.osQueries = some 15 ∧
     ((GetOrFindProcess (testEnv (childHas (frameworkProfile 2 true)) handleOk createOk) 2 100
        emptyWorld).world?.bind fun w1 =>
          (GetOrFindProcess (testEnv (childHas (frameworkProfile 2 true)) handleOk createOk) 2 100
            w1).world?.map World.osQueries) = some 23) ∧
    ((GetOrFindProcess (testEnv (childHas plainProfile) handleOk createFails) 1 100
        emptyWorld).world?.map World.osQueries = some 7 ∧
     ((GetOrFindProcess (testEnv (childHas plainProfile) handleOk createFails) 1 100
        emptyWorld).world?.bind fun w1 =>
          (GetOrFindProcess (testEnv (childHas plainProfile) handleOk createFails) 1 100
            w1).world?.map World.osQueries) = some 14) ∧
    ((GetOrFindProcess (countingEnv createFails) 1 100
        countingWorld).process?.map Process.ProfileKey = some "1" ∧
     ((GetOrFindProcess (countingEnv createFails) 1 100 countingWorld).world?.bind fun w1 =>
          (GetOrFindProcess (countingEnv createFails) 1 100
            w1).process?.map Process.ProfileKey) = some "2") := by
  refine ⟨⟨?_, ?_, ?_⟩, ⟨?_, ?_⟩, ?_, ?_⟩ <;> rfl

/-! ## The handling of frameworks -/

theorem parentLoop_lookups {σ : Type} (env : Env σ) (pInfoPid : Int) :
    ∀ k ppid (w : World σ), (parentLoop env pInfoPid k ppid w).2.lookups = w.lookups := by
  intro k
  induction k with
  | zero => intro ppid w; rfl
  | succ k ih =>
    intro ppid w
    rw [parentLoop]
    split
    · rfl
    · rw [ih]; rfl

/-- With `FindParent = 1` the inner loop does not run and hands on pid 0. -/
theorem parentLoop_one_hop {σ : Type} (env : Env σ) (pInfoPid : Int) (w : World σ) :
    parentLoop env pInfoPid (1 - 1) 0 w = (.ok 0, w) := rfl

/-- With `FindParent = n + 2` the inner loop hands on the direct parent of the
process, however large `n` is. -/
theorem parentLoop_more_hops {σ : Type} (env : Env σ) (pInfoPid parent : Int)
    (h : env.Parent pInfoPid = .ok parent) :
    ∀ n ppid (w : World σ), (parentLoop env pInfoPid (n + 2 - 1) ppid w).1 = .ok parent := by
  intro n
  induction n with
  | zero =>
    intro ppid w
    show (parentLoop env pInfoPid (0 + 1) ppid w).1 = _
    rw [parentLoop]
    simp only [h]
    rfl
  | succ n ih =>
    intro ppid w
    show (parentLoop env pInfoPid ((n + 2 - 1) + 1) ppid w).1 = _
    rw [parentLoop]
    simp only [h]
    exact ih _ _

/-- C1 (the code at the failing input): on the test machine, where the parent
of pid 100 is 50 and the parent of 50 is 1, with a profile on the path of 100
whose framework has MergeWithParent = true. With FindParent = 1 the call for 100
returns the kernel process with Pid 0, while resolving the parent 50 gives Pid
50. With FindParent = 2 it returns the process with Pid 50, while resolving the
second ancestor 1 gives Pid 1. -/
theorem GetOrFindProcess_merge_wrong_ancestor :
    (testEnv (childHas (frameworkProfile 1 true)) handleOk createOk).Parent (toInt32 100)
      = .ok 50 ∧
    (testEnv (childHas (frameworkProfile 1 true)) handleOk createOk).Parent (toInt32 50)
      = .ok 1 ∧
    (GetOrFindProcess (testEnv (childHas (frameworkProfile 1 true)) handleOk createOk) 2 100
      emptyWorld).process?.map Process.Pid = some 0 ∧
    (GetOrFindProcess (testEnv (childHas (frameworkProfile 1 true)) handleOk createOk) 2 50
      emptyWorld).process?.map Process.Pid = some 50 ∧
    (GetOrFindProcess (testEnv (childHas (frameworkProfile 2 true)) handleOk createOk) 2 100
      emptyWorld).process?.map Process.Pid = some 50 ∧
    (GetOrFindProcess (testEnv (childHas (frameworkProfile 2 true)) handleOk createOk) 2 1
      emptyWorld).process?.map Process.Pid = some 1 := by
  refine ⟨?_, ?_, ?_, ?_, ?_, ?_⟩ <;> rfl

/-- C4 (what the code does): when an iteration of the matching loop that
starts with fewer than 10 iterations run looks up a profile whose framework has
FindParent > 0 and MergeWithParent = false, and the parent walk succeeds, the
loop ends right there: the `continue` meets the loop condition with
applyProfile set, so no further lookup is made and the process is left as it
was, without profile. -/
theorem matchLoop_findParent_stops {σ : Type} (env : Env σ) (pInfoPid : Int) (fuel : Nat)
    (new : Process) (path : String) (iter : Nat) (w : World σ) (p : Profile) (fw : Framework)
    (s : σ) (ppid : Int) (w2 : World σ)
    (hiter : iter < 10)
    (hlook : lookupProfile env w.profiles path new.UserHome = ((some p, none), s))
    (hfw : p.Framework = some fw) (hhops : 0 < fw.FindParent)
    (hmerge : fw.MergeWithParent = false)
    (hpar : parentLoop env pInfoPid (fw.FindParent - 1) 0
        { w with profiles := s, lookups := w.lookups + 1 } = (.ok ppid, w2)) :
    matchLoop env pInfoPid (fuel + 2) new path none iter w = .done new w2 ∧
      w2.lookups = w.lookups + 1 := by
  constructor
  · rw [matchLoop]
    have h10 : ¬ (iter + 1 > 10) := by omega
    simp only [Option.isSome_none, Bool.false_eq_true, if_false, h10, hlook, hfw, hhops,
      gt_iff_lt, if_true, hpar, hmerge]
    rw [matchLoop]
    simp only [Option.isSome_some, if_true]
  · have h := parentLoop_lookups env pInfoPid (fw.FindParent - 1) 0
      { w with profiles := s, lookups := w.lookups + 1 }
    rw [hpar] at h
    exact h

/-- C4 (witness): the first iteration for pid 100 on the test machine, with a
profile on its path whose framework has FindParent = 1 and no merge. -/
theorem matchLoop_findParent_stops_witness :
    matchLoop (testEnv (childHas (frameworkProfile 1 false)) handleOk createOk) 100 (9 + 2)
        (Process.zero 100) "/bin/child" none 0 emptyWorld
      = .done (Process.zero 100) { emptyWorld with lookups := 1 } ∧
    ({ emptyWorld with lookups := 1 } : World Unit).lookups = emptyWorld.lookups + 1 :=
  matchLoop_findParent_stops (testEnv (childHas (frameworkProfile 1 false)) handleOk createOk)
    100 9 (Process.zero 100) "/bin/child" 0 emptyWorld (frameworkProfile 1 false)
    { FindParent := 1, MergeWithParent := false, Rule := "" } () 0 { emptyWorld with lookups := 1 }
    (by decide) rfl rfl (by decide) rfl rfl

/-- At the failing input of C4 the whole call makes one matching attempt and
returns pid 100 without profile. -/
theorem GetOrFindProcess_findParent_unprofiled :
    (GetOrFindProcess (testEnv (childHas (frameworkProfile 1 false)) handleOk createOk) 1 100
      emptyWorld).world?.map World.lookups = some 1 ∧
    (GetOrFindProcess (testEnv (childHas (frameworkProfile 1 false)) handleOk createOk) 1 100
      emptyWorld).process?.map Process.Profile = some none ∧
    (GetOrFindProcess (testEnv (childHas (frameworkProfile 1 false)) handleOk createOk) 1 100
      emptyWorld).process?.map Process.Pid = some 100 := by
  refine ⟨?_, ?_, ?_⟩ <;> rfl

end process

namespace profile

/-! ## The map operations -/

theorem mapGet_mem (m : SetMap) (key : String) (set : Nat) (h : mapGet m key = some set) :
    (key, set) ∈ m := by
  unfold mapGet at h
  cases hf : m.find? (fun e => e.1 == key) with
  | none => rw [hf] at h; exact Option.noConfusion h
  | some e =>
    rw [hf] at h
    have hmem := List.mem_of_find?_eq_some hf
    have hkey := List.find?_some hf
    simp only [beq_iff_eq] at hkey
    simp only [Option.map_some', Option.some.injEq] at h
    have he : e = (key, set) := Prod.ext hkey h
    rw [← he]
    exact hmem

theorem mapGet_eq_none (m : SetMap) (key : String) :
    mapGet m key = none ↔ ∀ e ∈ m, e.1 ≠ key := by
  unfold mapGet
  simp [List.find?_eq_none]

theorem mapDelete_mem (m : SetMap) (key : String) (e : String × Nat) :
    e ∈ mapDelete m key ↔ e ∈ m ∧ e.1 ≠ key := by
  unfold mapDelete
  simp [List.mem_filter]

theorem mapDelete_absent (m : SetMap) (key : String) (h : mapGet m key = none) :
    mapDelete m key = m := by
  unfold mapDelete
  rw [List.filter_eq_self]
  intro e he
  have := (mapGet_eq_none m key).1 h e he
  simpa using this

theorem mapGet_mapDelete (m : SetMap) (key k : String) :
    mapGet (mapDelete m key) k = if k = key then none else mapGet m k := by
  induction m with
  | nil => simp [mapDelete, mapGet]
  | cons e m ih =>
    by_cases hk : k = key
    · subst hk
      simp only [if_true]
      rw [mapGet_eq_none]
      intro e1 he1
      exact ((mapDelete_mem _ _ _).1 he1).2
    · simp only [hk, if_false] at ih ⊢
      by_cases he : e.1 = key
      · have h1 : mapDelete (e :: m) key = mapDelete m key := by
          simp [mapDelete, List.filter_cons, he]
        have h2 : mapGet (e :: m) k = mapGet m k := by
          have : ¬ (e.1 = k) := fun h => hk (h.symm.trans he)
          simp [mapGet, List.find?_cons, this]
        rw [h1, h2, ih]
      · have h1 : mapDelete (e :: m) key = e :: mapDelete m key := by
          simp [mapDelete, List.filter_cons, he]
        rw [h1]
        by_cases hek : e.1 = k
        · simp [mapGet, List.find?_cons, hek]
        · have h3 : ∀ l : SetMap, mapGet (e :: l) k = mapGet l k := by
            intro l
            simp [mapGet, List.find?_cons, hek]
          rw [h3, h3, ih]

theorem mapGet_mapSet_self (m : SetMap) (key : String) (set : Nat) :
    mapGet (mapSet m key set) key = some set := by
  simp [mapSet, mapGet, List.find?_cons]

/-! ## The four functions of the registry -/

/-- C6: updateActiveUserProfile(p) sets layer 0 of the set registered under
p.ID to p and leaves its other layers and all other sets as they are; without
such an entry it changes nothing; the map itself is never changed. So after
activateProfileSet(s) with s.profiles[0].ID = p.ID the set registered under
p.ID is s and its layer 0 reads p, and after DeactivateProfileSet(s) the call
changes nothing and no entry exists under p.ID. -/
theorem updateActiveUserProfile_spec (st : Registry) (p : Profile) :
    (∀ set, mapGet st.activeProfileSets p.ID = some set →
        ((updateActiveUserProfile p st).sets set).profiles0 = some p ∧
        ((updateActiveUserProfile p st).sets set).profiles1 = (st.sets set).profiles1 ∧
        ((updateActiveUserProfile p st).sets set).profiles2 = (st.sets set).profiles2 ∧
        ∀ other, other ≠ set → (updateActiveUserProfile p st).sets other = st.sets other) ∧
    (mapGet st.activeProfileSets p.ID = none → updateActiveUserProfile p st = st) ∧
    (updateActiveUserProfile p st).activeProfileSets = st.activeProfileSets ∧
    (∀ set p0, (st.sets set).profiles0 = some p0 → p0.ID = p.ID →
        ∃ st1, activateProfileSet set st = some st1 ∧
          mapGet (updateActiveUserProfile p st1).activeProfileSets p.ID = some set ∧
          ((updateActiveUserProfile p st1).sets set).profiles0 = some p) ∧
    (∀ set p0, (st.sets set).profiles0 = some p0 → p0.ID = p.ID →
        ∃ st1, DeactivateProfileSet set st = some st1 ∧
          updateActiveUserProfile p st1 = st1 ∧
          mapGet (updateActiveUserProfile p st1).activeProfileSets p.ID = none) := by
  have hupd : ∀ (st : Registry) set, mapGet st.activeProfileSets p.ID = some set →
      ((updateActiveUserProfile p st).sets set).profiles0 = some p ∧
      ((updateActiveUserProfile p st).sets set).profiles1 = (st.sets set).profiles1 ∧
      ((updateActiveUserProfile p st).sets set).profiles2 = (st.sets set).profiles2 ∧
      ∀ other, other ≠ set → (updateActiveUserProfile p st).sets other = st.sets other := by
    intro st set h
    simp only [updateActiveUserProfile, h, Function.update_same]
    refine ⟨trivial, trivial, trivial, ?_⟩
    intro other hne
    exact Function.update_noteq hne _ _
  have hnone : ∀ st : Registry, mapGet st.activeProfileSets p.ID = none →
      updateActiveUserProfile p st = st := by
    intro st h
    simp only [updateActiveUserProfile, h]
  have hmap : ∀ st : Registry,
      (updateActiveUserProfile p st).activeProfileSets = st.activeProfileSets := by
    intro st
    unfold updateActiveUserProfile
    split <;> rfl
  refine ⟨hupd st, hnone st, hmap st, ?_, ?_⟩
  · intro set p0 h0 hid
    refine ⟨{ st with activeProfileSets := mapSet st.activeProfileSets p0.ID set },
      by simp only [activateProfileSet, h0], ?_⟩
    have hget : mapGet (mapSet st.activeProfileSets p0.ID set) p.ID = some set := by
      rw [hid]
      exact mapGet_mapSet_self _ _ _
    refine ⟨?_, ?_⟩
    · rw [hmap]
      exact hget
    · exact (hupd { st with activeProfileSets := mapSet st.activeProfileSets p0.ID set } set
        hget).1
  · intro set p0 h0 hid
    refine ⟨{ st with activeProfileSets := mapDelete st.activeProfileSets p0.ID },
      by simp only [DeactivateProfileSet, h0], ?_⟩
    have hget : mapGet (mapDelete st.activeProfileSets p0.ID) p.ID = none := by
      rw [mapGet_mapDelete, hid]
      simp
    have hsame := hnone { st with activeProfileSets := mapDelete st.activeProfileSets p0.ID } hget
    refine ⟨hsame, ?_⟩
    rw [hsame]
    exact hget

/-- C6 (witness): in the test registry set 0 is registered under "X"; the
update with a new profile of ID "X" is read back from layer 0 of set 0. -/
theorem updateActiveUserProfile_spec_witness :
    ((updateActiveUserProfile (prof "X" "new") testRegistry).sets 0).profiles0
        = some (prof "X" "new") ∧
    (∃ st1, DeactivateProfileSet 0 testRegistry = some st1 ∧
      updateActiveUserProfile (prof "X" "new") st1 = st1 ∧
      mapGet (updateActiveUserProfile (prof "X" "new") st1).activeProfileSets
        (prof "X" "new").ID = none) :=
  ⟨((updateActiveUserProfile_spec testRegistry (prof "X" "new")).1 0 rfl).1,
   (updateActiveUserProfile_spec testRegistry (prof "X" "new")).2.2.2.2 0 (prof "X" "first")
     rfl rfl⟩

theorem stampOne_apply (p : Profile) (sets : Nat → Set) (activeSet a : Nat) :
    stampOne p sets activeSet a =
      if a = activeSet ∧ stampMatches p (sets a) = true
      then { sets a with profiles2 := some p } else sets a := by
  unfold stampOne stampMatches
  by_cases ha : a = activeSet
  · subst ha
    cases h2 : (sets a).profiles2 with
    | none => simp
    | some q =>
      by_cases hid : q.ID = p.ID
      · simp [hid]
      · simp [hid]
  · cases h2 : (sets activeSet).profiles2 with
    | none => simp [ha]
    | some q =>
      by_cases hid : q.ID = p.ID
      · simp [hid, ha, Function.update_noteq ha]
      · simp [hid, ha]

theorem stamp_foldl_apply (p : Profile) :
    ∀ (m : SetMap) (sets : Nat → Set) (a : Nat),
      (m.foldl (fun sets e => stampOne p sets e.2) sets) a =
        if a ∈ m.map Prod.snd ∧ stampMatches p (sets a) = true
        then { sets a with profiles2 := some p } else sets a := by
  intro m
  induction m with
  | nil => intro sets a; simp
  | cons e m ih =>
    intro sets a
    rw [List.foldl_cons, ih, stampOne_apply]
    simp only [List.map_cons, List.mem_cons]
    by_cases hm : stampMatches p (sets a) = true
    · by_cases ha : a = e.2
      · have hX : (if a = e.2 ∧ stampMatches p (sets a) = true
            then { sets a with profiles2 := some p } else sets a)
            = { sets a with profiles2 := some p } := if_pos ⟨ha, hm⟩
        rw [hX, if_pos (And.intro (Or.inl ha) hm)]
        split <;> rfl
      · have hX : (if a = e.2 ∧ stampMatches p (sets a) = true
            then { sets a with profiles2 := some p } else sets a) = sets a :=
          if_neg (fun h => ha h.1)
        rw [hX]
        simp only [ha, false_or]
    · have hX : (if a = e.2 ∧ stampMatches p (sets a) = true
          then { sets a with profiles2 := some p } else sets a) = sets a :=
        if_neg (fun h => hm h.2)
      rw [hX, if_neg (fun h => hm h.2), if_neg (fun h => hm h.2)]

theorem stampMatches_iff (p : Profile) (s : Set) :
    stampMatches p s = true ↔ ∃ q, s.profiles2 = some q ∧ q.ID = p.ID := by
  unfold stampMatches
  cases h : s.profiles2 with
  | none => simp
  | some q => simp

theorem updateActiveStampProfile_sets (p : Profile) (st : Registry) (set : Nat) :
    (updateActiveStampProfile p st).sets set =
      if set ∈ st.activeProfileSets.map Prod.snd ∧ stampMatches p (st.sets set) = true
      then { st.sets set with profiles2 := some p } else st.sets set :=
  stamp_foldl_apply p st.activeProfileSets st.sets set

/-- C7: after updateActiveStampProfile(p) the map is unchanged, layers 0 and 1
of every set are unchanged, layer 2 of a registered set whose layer-2 profile
was non-nil with the ID of p is p, and layer 2 of every other set (registered
with another layer 2, or not registered) is unchanged. -/
theorem updateActiveStampProfile_spec (st : Registry) (p : Profile) :
    (updateActiveStampProfile p st).activeProfileSets = st.activeProfileSets ∧
    ∀ set,
      ((updateActiveStampProfile p st).sets set).profiles0 = (st.sets set).profiles0 ∧
      ((updateActiveStampProfile p st).sets set).profiles1 = (st.sets set).profiles1 ∧
      ((∃ key, (key, set) ∈ st.activeProfileSets) →
        ∀ q, (st.sets set).profiles2 = some q → q.ID = p.ID →
          ((updateActiveStampProfile p st).sets set).profiles2 = some p) ∧
      (¬ ((∃ key, (key, set) ∈ st.activeProfileSets) ∧
            ∃ q, (st.sets set).profiles2 = some q ∧ q.ID = p.ID) →
          ((updateActiveStampProfile p st).sets set).profiles2 = (st.sets set).profiles2) := by
  refine ⟨rfl, ?_⟩
  intro set
  have hreg : set ∈ st.activeProfileSets.map Prod.snd ↔ ∃ key, (key, set) ∈ st.activeProfileSets := by
    simp [List.mem_map]
  rw [updateActiveStampProfile_sets]
  by_cases hc : set ∈ st.activeProfileSets.map Prod.snd ∧ stampMatches p (st.sets set) = true
  · rw [if_pos hc]
    refine ⟨rfl, rfl, fun _ _ _ _ => rfl, ?_⟩
    intro hn
    exact absurd ⟨hreg.1 hc.1, (stampMatches_iff p _).1 hc.2⟩ hn
  · rw [if_neg hc]
    refine ⟨rfl, rfl, ?_, fun _ => rfl⟩
    intro hk q hq hid
    exact absurd ⟨hreg.2 hk, (stampMatches_iff p _).2 ⟨q, hq, hid⟩⟩ hc

/-- C7 (witness): in the test registry the registered set 0 has the stamp
profile "S" in layer 2 and takes the new one; set 2 has the same stamp profile
but is not registered and keeps the old one. -/
theorem updateActiveStampProfile_spec_witness :
    ((updateActiveStampProfile (prof "S" "new stamp") testRegistry).sets 0).profiles2
        = some (prof "S" "new stamp") ∧
    ((updateActiveStampProfile (prof "S" "new stamp") testRegistry).sets 2).profiles2
        = (testRegistry.sets 2).profiles2 :=
  ⟨((updateActiveStampProfile_spec testRegistry (prof "S" "new stamp")).2 0).2.2.1
      ⟨"X", by decide⟩ (prof "S" "stamp") rfl rfl,
   ((updateActiveStampProfile_spec testRegistry (prof "S" "new stamp")).2 2).2.2.2
      (by
        rintro ⟨⟨key, hkey⟩, -⟩
        simp [testRegistry] at hkey)⟩

/-- C8 (amended): DeactivateProfileSet(s) deletes by key. With p0 the layer-0
profile of s, the call returns, leaves every set as it is and removes from the
map exactly the entries under the key p0.ID, whichever set is stored there;
every other key keeps its entry. When no entry exists under p0.ID the registry
is unchanged. -/
theorem DeactivateProfileSet_spec (st : Registry) (set : Nat) (p0 : Profile)
    (h0 : (st.sets set).profiles0 = some p0) :
    ∃ st1, DeactivateProfileSet set st = some st1 ∧ st1.sets = st.sets ∧
      st1.activeProfileSets = st.activeProfileSets.filter (fun e => e.1 != p0.ID) ∧
      (∀ key, mapGet st1.activeProfileSets key
          = if key = p0.ID then none else mapGet st.activeProfileSets key) ∧
      (mapGet st.activeProfileSets p0.ID = none → st1 = st) := by
  refine ⟨{ st with activeProfileSets := mapDelete st.activeProfileSets p0.ID },
    by simp only [DeactivateProfileSet, h0], rfl, rfl, ?_, ?_⟩
  · intro key
    exact mapGet_mapDelete _ _ _
  · intro h
    show ({ sets := st.sets, activeProfileSets := mapDelete st.activeProfileSets p0.ID } : Registry)
      = st
    rw [mapDelete_absent _ _ h]

/-- C8 (witness): set 2 of the test heap has the layer-0 ID "Y", under which
nothing is registered in the test registry. -/
theorem DeactivateProfileSet_spec_witness :
    ∃ st1, DeactivateProfileSet 2 testRegistry = some st1 ∧ st1.sets = testRegistry.sets ∧
      st1.activeProfileSets
        = testRegistry.activeProfileSets.filter (fun e => e.1 != (prof "Y" "third").ID) ∧
      (∀ key, mapGet st1.activeProfileSets key
          = if key = (prof "Y" "third").ID then none
            else mapGet testRegistry.activeProfileSets key) ∧
      (mapGet testRegistry.activeProfileSets (prof "Y" "third").ID = none → st1 = testRegistry) :=
  DeactivateProfileSet_spec testRegistry 2 (prof "Y" "third") rfl

/-- C8 (counterexample): in the test registry only set 0 is stored, under
"X". Set 1 is stored in no entry but has the layer-0 ID "X" as well, and
DeactivateProfileSet(1) leaves the map empty: it removed the entry of set 0. -/
theorem DeactivateProfileSet_removes_other_set :
    testRegistry.activeProfileSets = [("X", 0)] ∧
    (∀ e ∈ testRegistry.activeProfileSets, e.2 ≠ 1) ∧
    (testRegistry.sets 1).profiles0 = some (prof "X" "second") ∧
    (DeactivateProfileSet 1 testRegistry).map Registry.activeProfileSets = some [] ∧
    ¬ ((DeactivateProfileSet 1 testRegistry).map Registry.activeProfileSets
        = some testRegistry.activeProfileSets) := by
  refine ⟨rfl, by decide, rfl, by decide, by decide⟩

/-! ## The key invariant -/

theorem activateProfileSet_keysMatch (st st1 : Registry) (set : Nat) (h : KeysMatch st)
    (hact : activateProfileSet set st = some st1) : KeysMatch st1 := by
  unfold activateProfileSet at hact
  cases h0 : (st.sets set).profiles0 with
  | none => rw [h0] at hact; exact Option.noConfusion hact
  | some p0 =>
    rw [h0] at hact
    simp only [Option.some.injEq] at hact
    subst hact
    intro key s hmem
    simp only [mapSet, List.mem_cons] at hmem
    rcases hmem with heq | hmem
    · have hk : key = p0.ID := congrArg Prod.fst heq
      have hs : s = set := congrArg Prod.snd heq
      subst hk
      subst hs
      exact ⟨p0, h0, rfl⟩
    · exact h key s ((mapDelete_mem _ _ _).1 hmem).1

theorem DeactivateProfileSet_keysMatch (st st1 : Registry) (set : Nat) (h : KeysMatch st)
    (hde : DeactivateProfileSet set st = some st1) : KeysMatch st1 := by
  unfold DeactivateProfileSet at hde
  cases h0 : (st.sets set).profiles0 with
  | none => rw [h0] at hde; exact Option.noConfusion hde
  | some p0 =>
    rw [h0] at hde
    simp only [Option.some.injEq] at hde
    subst hde
    intro key s hmem
    exact h key s ((mapDelete_mem _ _ _).1 hmem).1

theorem updateActiveUserProfile_keysMatch (st : Registry) (p : Profile) (h : KeysMatch st) :
    KeysMatch (updateActiveUserProfile p st) := by
  unfold updateActiveUserProfile
  cases hg : mapGet st.activeProfileSets p.ID with
  | none => exact h
  | some a =>
    intro key s hmem
    simp only at hmem ⊢
    by_cases hs : s = a
    · subst hs
      obtain ⟨q1, hq1, hk1⟩ := h key s hmem
      obtain ⟨q2, hq2, hk2⟩ := h p.ID s (mapGet_mem _ _ _ hg)
      rw [hq1] at hq2
      simp only [Option.some.injEq] at hq2
      subst hq2
      refine ⟨p, ?_, hk2.symm.trans hk1⟩
      simp only [Function.update_same]
    · obtain ⟨q1, hq1, hk1⟩ := h key s hmem
      refine ⟨q1, ?_, hk1⟩
      rw [Function.update_noteq hs]
      exact hq1

theorem updateActiveStampProfile_keysMatch (st : Registry) (p : Profile) (h : KeysMatch st) :
    KeysMatch (updateActiveStampProfile p st) := by
  intro key s hmem
  obtain ⟨q1, hq1, hk1⟩ := h key s hmem
  refine ⟨q1, ?_, hk1⟩
  rw [updateActiveStampProfile_sets]
  split
  · exact hq1
  · exact hq1

theorem run_keysMatch : ∀ (ops : List Op) (st st1 : Registry), KeysMatch st →
    run ops st = some st1 → KeysMatch st1 := by
  intro ops
  induction ops with
  | nil =>
    intro st st1 h hrun
    simp only [run, Option.some.injEq] at hrun
    rw [← hrun]
    exact h
  | cons op ops ih =>
    intro st st1 h hrun
    rw [run] at hrun
    cases hop : op.apply st with
    | none => rw [hop] at hrun; exact Option.noConfusion hrun
    | some st2 =>
      rw [hop] at hrun
      refine ih st2 st1 ?_ hrun
      cases op with
      | activate set => exact activateProfileSet_keysMatch st st2 set h hop
      | deactivate set => exact DeactivateProfileSet_keysMatch st st2 set h hop
      | updateUser q =>
        simp only [Op.apply, Option.some.injEq] at hop
        rw [← hop]
        exact updateActiveUserProfile_keysMatch st q h
      | updateStamp q =>
        simp only [Op.apply, Option.some.injEq] at hop
        rw [← hop]
        exact updateActiveStampProfile_keysMatch st q h

/-- C9: in every registry state reached from the empty registry, over any
heap of sets, by any sequence of calls of activateProfileSet,
DeactivateProfileSet, updateActiveUserProfile and updateActiveStampProfile, the
key of every entry is the ID of the layer-0 profile of the set stored under
it. -/
theorem registry_keys_match (sets : Nat → Set) (ops : List Op) (st : Registry)
    (hrun : run ops (Registry.empty sets) = some st) :
    ∀ key set, (key, set) ∈ st.activeProfileSets →
      ∃ p0, (st.sets set).profiles0 = some p0 ∧ p0.ID = key :=
  run_keysMatch ops (Registry.empty sets) st
    (fun _ _ hmem => absurd hmem (List.not_mem_nil _)) hrun

/-- C9 (witness): the sequence `testOps` on the test heap ends with set 1
under "X" and set 2 under "Y". -/
theorem registry_keys_match_witness :
    ∃ st, run testOps (Registry.empty testSets) = some st ∧
      st.activeProfileSets = [("X", 1), ("Y", 2)] ∧
      ∀ key set, (key, set) ∈ st.activeProfileSets →
        ∃ p0, (st.sets set).profiles0 = some p0 ∧ p0.ID = key :=
  ⟨_, rfl, by decide, registry_keys_match testSets testOps _ rfl⟩

end profile

namespace updates

/-! ## The byte-wise order -/

theorem stringLess_irrefl : ∀ a : GoString, stringLess a a = false := by
  intro a
  induction a with
  | nil => rfl
  | cons x xs ih => simp [stringLess, ih]

theorem stringLess_trans : ∀ a b c : GoString,
    stringLess a b = true → stringLess b c = true → stringLess a c = true := by
  intro a
  induction a with
  | nil =>
    intro b c h1 h2
    cases b with
    | nil => simp [stringLess] at h1
    | cons y ys =>
      cases c with
      | nil => simp [stringLess] at h2
      | cons z zs => simp [stringLess]
  | cons x xs ih =>
    intro b c h1 h2
    cases b with
    | nil => simp [stringLess] at h1
    | cons y ys =>
      cases c with
      | nil => simp [stringLess] at h2
      | cons z zs =>
        simp only [stringLess] at h1 h2 ⊢
        by_cases hxy : x < y
        · by_cases hyz : y < z
          · have : x < z := by omega
            simp [this]
          · by_cases hzy : z < y
            · simp [hyz, hzy] at h2
            · have : x < z := by omega
              simp [this]
        · by_cases hyx : y < x
          · simp [hxy, hyx] at h1
          · simp only [hxy, hyx, if_false] at h1
            have hxy2 : x = y := by omega
            subst hxy2
            by_cases hxz : x < z
            · simp [hxz]
            · by_cases hzx : z < x
              · simp [hxz, hzx] at h2
              · simp only [hxz, hzx, if_false] at h2 ⊢
                exact ih ys zs h1 h2

theorem stringLess_connex : ∀ a b : GoString,
    stringLess a b = false → stringLess b a = false → a = b := by
  intro a
  induction a with
  | nil =>
    intro b h1 h2
    cases b with
    | nil => rfl
    | cons y ys => simp [stringLess] at h1
  | cons x xs ih =>
    intro b h1 h2
    cases b with
    | nil => simp [stringLess] at h2
    | cons y ys =>
      simp only [stringLess] at h1 h2
      by_cases hxy : x < y
      · simp [hxy] at h1
      · by_cases hyx : y < x
        · simp [hyx] at h2
        · simp only [hxy, hyx, if_false] at h1 h2
          have hxy2 : x = y := by omega
          rw [hxy2, ih ys h1 h2]

theorem stringLess_negtrans (a b c : GoString)
    (h1 : stringLess a b = false) (h2 : stringLess b c = false) : stringLess a c = false := by
  cases hac : stringLess a c with
  | false => rfl
  | true =>
    cases hba : stringLess b a with
    | true =>
      have := stringLess_trans b a c hba hac
      rw [h2] at this
      exact Bool.noConfusion this
    | false =>
      have hab : a = b := stringLess_connex a b h1 hba
      rw [hab, h2] at hac
      exact Bool.noConfusion hac

/-! ## Keeping the greatest version -/

theorem foldl_pick_spec : ∀ (l : List GoString) (cur : Option GoString),
    (l.foldl pick cur = none ↔ cur = none ∧ l = []) ∧
    ∀ v, l.foldl pick cur = some v →
      (cur = some v ∨ v ∈ l) ∧ (∀ w ∈ l, stringLess v w = false) ∧
      (∀ s, cur = some s → stringLess v s = false) := by
  intro l
  induction l with
  | nil =>
    intro cur
    refine ⟨by simp, ?_⟩
    intro v hv
    simp only [List.foldl_nil] at hv
    refine ⟨Or.inl hv, by simp, ?_⟩
    intro s hs
    rw [hv] at hs
    simp only [Option.some.injEq] at hs
    rw [hs]
    exact stringLess_irrefl s
  | cons x xs ih =>
    intro cur
    rw [List.foldl_cons]
    obtain ⟨ih1, ih2⟩ := ih (pick cur x)
    have hpick : pick cur x ≠ none := by
      unfold pick
      cases cur with
      | none => simp
      | some s => simp only; split <;> simp
    refine ⟨?_, ?_⟩
    · rw [ih1]
      constructor
      · intro h; exact absurd h.1 hpick
      · intro h; exact absurd h.2 (List.cons_ne_nil _ _)
    · intro v hv
      obtain ⟨hmem, hall, hcur⟩ := ih2 v hv
      cases cur with
      | none =>
        have hp : pick none x = some x := rfl
        rw [hp] at hmem hcur
        refine ⟨Or.inr ?_, ?_, by simp⟩
        · rcases hmem with h | h
          · simp only [Option.some.injEq] at h
            rw [h]; exact List.mem_cons_self _ _
          · exact List.mem_cons_of_mem _ h
        · intro w hw
          rcases List.mem_cons.1 hw with h | h
          · rw [h]; exact hcur x rfl
          · exact hall w h
      | some s =>
        by_cases hsx : stringLess s x = true
        · have hp : pick (some s) x = some x := by simp [pick, hsx]
          rw [hp] at hmem hcur
          have hvx : stringLess v x = false := hcur x rfl
          refine ⟨Or.inr ?_, ?_, ?_⟩
          · rcases hmem with h | h
            · simp only [Option.some.injEq] at h
              rw [h]; exact List.mem_cons_self _ _
            · exact List.mem_cons_of_mem _ h
          · intro w hw
            rcases List.mem_cons.1 hw with h | h
            · rw [h]; exact hvx
            · exact hall w h
          · intro s1 hs1
            simp only [Option.some.injEq] at hs1
            subst hs1
            cases hvs : stringLess v s with
            | false => rfl
            | true =>
              have := stringLess_trans v s x hvs hsx
              rw [hvx] at this
              exact Bool.noConfusion this
        · have hsx2 : stringLess s x = false := by simpa using hsx
          have hp : pick (some s) x = some s := by simp [pick, hsx2]
          rw [hp] at hmem hcur
          have hvs : stringLess v s = false := hcur s rfl
          refine ⟨?_, ?_, ?_⟩
          · rcases hmem with h | h
            · exact Or.inl h
            · exact Or.inr (List.mem_cons_of_mem _ h)
          · intro w hw
            rcases List.mem_cons.1 hw with h | h
            · rw [h]; exact stringLess_negtrans v s x hvs hsx2
            · exact hall w h
          · intro s1 hs1
            simp only [Option.some.injEq] at hs1
            subst hs1
            exact hvs

theorem find_filter_ne (key k : GoString) (hk : ¬ k = key) : ∀ m : StringMap,
    (m.filter (fun e => e.1 != key)).find? (fun e => e.1 == k) = m.find? (fun e => e.1 == k) := by
  intro m
  induction m with
  | nil => rfl
  | cons e m ih =>
    by_cases he : e.1 = key
    · have hek : ¬ (e.1 = k) := fun h => hk (h.symm.trans he)
      have h1 : (e.1 != key) = false := by simp [he]
      have h2 : (e.1 == k) = false := by simpa using hek
      rw [List.filter_cons, h1, List.find?_cons, h2]
      exact ih
    · have h1 : (e.1 != key) = true := by simpa using he
      rw [List.filter_cons, h1]
      simp only [if_true, List.find?_cons]
      split
      · rfl
      · exact ih

theorem mapGet_mapSet (m : StringMap) (key value k : GoString) :
    mapGet (mapSet m key value) k = if k = key then some value else mapGet m k := by
  by_cases hk : k = key
  · subst hk
    simp [mapSet, mapGet, List.find?_cons]
  · have hb : (key == k) = false := by
      have : ¬ (key = k) := fun h => hk h.symm
      simpa using this
    simp only [hk, if_false]
    unfold mapSet mapGet
    rw [List.find?_cons]
    simp only [hb]
    rw [find_filter_ne key k hk]

/-- The walk keeps, under every identifier, what `pick` makes of the versions
found for it. -/
theorem Walk_latest (g : GoString → GoString × GoString × Bool) (baseDir : GoString)
    (hardFail : Bool) (id : GoString) : ∀ (visits : List Visit) (st : ScanState),
      mapGet (Walk g baseDir hardFail visits st).latest id
        = (versionsFound g baseDir hardFail id visits).foldl pick (mapGet st.latest id) := by
  intro visits
  induction visits with
  | nil => intro st; rfl
  | cons v vs ih =>
    intro st
    rw [Walk, versionsFound]
    cases herr : v.err with
    | some e =>
      cases hardFail with
      | true => simp [walkFn, herr]
      | false => simp [walkFn, herr, ih]
    | none =>
      simp only [walkFn, herr]
      have hl : (if (!v.isDir) = true then { st with added := st.added + 1 } else st).latest
          = st.latest := by
        split <;> rfl
      generalize (if (!v.isDir) = true then { st with added := st.added + 1 } else st) = st0
        at hl ⊢
      rw [← hl]
      by_cases hok : (g (TrimLeftSlash (TrimPrefix v.path baseDir))).2.2 = true
      · simp only [hok, Bool.not_true, Bool.false_eq_true, if_false, true_and]
        by_cases hid : (g (TrimLeftSlash (TrimPrefix v.path baseDir))).1 = id
        · simp only [hid, if_true, List.foldl_cons]
          cases hget : mapGet st0.latest id with
          | none => simp only [ih, mapGet_mapSet, if_true, pick]
          | some s =>
            by_cases hless :
                stringLess s (g (TrimLeftSlash (TrimPrefix v.path baseDir))).2.1 = true
            · simp only [hless, if_true, ih, mapGet_mapSet, pick]
            · simp only [hless, if_false, ih, hget, pick, Bool.false_eq_true]
        · simp only [hid, if_false]
          have hid2 : ¬ (id = (g (TrimLeftSlash (TrimPrefix v.path baseDir))).1) :=
            fun h => hid h.symm
          cases hget : mapGet st0.latest (g (TrimLeftSlash (TrimPrefix v.path baseDir))).1 with
          | none => simp only [ih, mapGet_mapSet, hid2, if_false]
          | some s =>
            by_cases hless :
                stringLess s (g (TrimLeftSlash (TrimPrefix v.path baseDir))).2.1 = true
            · simp only [hless, if_true, ih, mapGet_mapSet, hid2, if_false]
            · simp only [hless, if_false, ih, Bool.false_eq_true]
      · simp only [hok, Bool.not_false, if_true, false_and, if_false, ih, Bool.false_eq_true]

/-! ## `ScanForLatest` -/

/-- C10: the map that ScanForLatest returns holds, for each identifier, a
version found for it that no version found for it exceeds in the byte-wise
order of strings, and holds nothing for an identifier without version. This
order is not the numeric one: when two files of one identifier carry the
versions 1.9.0 and 1.10.0, the scan records 1.9.0, the numerically older one,
in whichever order the two files are visited. -/
theorem ScanForLatest_bytewise_greatest :
    (∀ (g : GoString → GoString × GoString × Bool) (visits : List Visit) (baseDir : GoString)
        (hardFail : Bool) (latest : StringMap),
        (ScanForLatest g visits baseDir hardFail).1 = some latest →
        ∀ id,
          (mapGet latest id = none ↔ versionsFound g baseDir hardFail id visits = []) ∧
          ∀ v, mapGet latest id = some v →
            v ∈ versionsFound g baseDir hardFail id visits ∧
            ∀ w ∈ versionsFound g baseDir hardFail id visits, stringLess v w = false) ∧
    (∀ (g : GoString → GoString × GoString × Bool) (baseDir : GoString) (hardFail : Bool)
        (p1 p2 id : GoString),
        g (TrimLeftSlash (TrimPrefix p1 baseDir)) = (id, ascii "1.9.0", true) →
        g (TrimLeftSlash (TrimPrefix p2 baseDir)) = (id, ascii "1.10.0", true) →
        numericallyOlder (ascii "1.9.0") (ascii "1.10.0") = true ∧
        ScanForLatest g [⟨p1, false, none⟩, ⟨p2, false, none⟩] baseDir hardFail
          = (some [(id, ascii "1.9.0")], none) ∧
        ScanForLatest g [⟨p2, false, none⟩, ⟨p1, false, none⟩] baseDir hardFail
          = (some [(id, ascii "1.9.0")], none)) := by
  constructor
  · intro g visits baseDir hardFail latest h id
    have hw := Walk_latest g baseDir hardFail id visits
      { latest := [], lastError := none, added := 0 }
    have hempty : mapGet ([] : StringMap) id = none := rfl
    simp only [hempty] at hw
    have hlatest : latest
        = (Walk g baseDir hardFail visits { latest := [], lastError := none, added := 0 }).latest := by
      unfold ScanForLatest at h
      simp only at h
      split at h
      · split at h
        · exact Option.noConfusion h
        · split at h <;> exact (Option.some.inj h).symm
      · exact (Option.some.inj h).symm
    rw [hlatest, hw]
    obtain ⟨h1, h2⟩ := foldl_pick_spec (versionsFound g baseDir hardFail id visits) none
    refine ⟨?_, ?_⟩
    · rw [h1]
      exact ⟨fun h => h.2, fun h => ⟨rfl, h⟩⟩
    · intro v hv
      obtain ⟨hmem, hall, -⟩ := h2 v hv
      refine ⟨?_, hall⟩
      rcases hmem with h | h
      · exact Option.noConfusion h
      · exact h
  · intro g baseDir hardFail p1 p2 id hp1 hp2
    have hlt1 : stringLess (ascii "1.9.0") (ascii "1.10.0") = false := by decide
    have hlt2 : stringLess (ascii "1.10.0") (ascii "1.9.0") = true := by decide
    refine ⟨by decide, ?_, ?_⟩
    · simp [ScanForLatest, Walk, walkFn, hp1, hp2, mapGet, mapSet, hlt1]
    · simp [ScanForLatest, Walk, walkFn, hp1, hp2, mapGet, mapSet, hlt2]

/-- C10 (witness): the stand-in parser on a walk over `tool/1.9.0` and
`tool/1.10.0`. -/
theorem ScanForLatest_bytewise_greatest_witness :
    (ascii "1.9.0" ∈ versionsFound testParse (ascii "/u") false (ascii "tool") testVisits ∧
      ∀ w ∈ versionsFound testParse (ascii "/u") false (ascii "tool") testVisits,
        stringLess (ascii "1.9.0") w = false) ∧
    (numericallyOlder (ascii "1.9.0") (ascii "1.10.0") = true ∧
      ScanForLatest testParse [⟨ascii "/u/tool/1.9.0", false, none⟩,
          ⟨ascii "/u/tool/1.10.0", false, none⟩] (ascii "/u") false
        = (some [(ascii "tool", ascii "1.9.0")], none) ∧
      ScanForLatest testParse [⟨ascii "/u/tool/1.10.0", false, none⟩,
          ⟨ascii "/u/tool/1.9.0", false, none⟩] (ascii "/u") false
        = (some [(ascii "tool", ascii "1.9.0")], none)) :=
  ⟨((ScanForLatest_bytewise_greatest.1 testParse testVisits (ascii "/u") false
        [(ascii "tool", ascii "1.9.0")] (by decide) (ascii "tool")).2 (ascii "1.9.0")
        (by decide)),
   ScanForLatest_bytewise_greatest.2 testParse (ascii "/u") false (ascii "/u/tool/1.9.0")
     (ascii "/u/tool/1.10.0") (ascii "tool") (by decide) (by decide)⟩

end updates
